import Mathlib

/-!
Verification of the hyperGRC Compliance Data Resolution Engine
(src/hypergrc/opencontrol.py and src/hypergrc/routes.py) against its
natural-language specification, via a shallow embedding in Lean 4.

Python strings are modelled as Lean `String` (a structure over `List Char`);
Python `None` as `Option.none`; YAML mappings as Lean structures whose fields
are the keys the code reads (with a `other` association list carrying the
keys the code never touches, so that frame properties are expressible);
raised exceptions as `Except.error`.  Character classes (`\d`, `\w`, `\s`)
are modelled over their ASCII ranges, which covers the control-number and
path inputs the code is applied to.
-/

/-! ## Basic character classes and small Python helpers -/

deriving instance DecidableEq for Except

/-- Python regex `\d` (ASCII decimal digit). -/
def pyIsDigit (c : Char) : Bool := c.isDigit

/-- Python regex `\w` (ASCII word character: letter, digit or underscore). -/
def pyIsWord (c : Char) : Bool := c.isAlphanum || c = '_'

/-- Python regex `\s` / `str.strip` whitespace (ASCII set). -/
def pyIsSpace (c : Char) : Bool :=
  c = ' ' || c = '\t' || c = '\n' || c = '\r' || c = '\x0b' || c = '\x0c'

/-- Python slice `s[0:n]` (by code points).  Lean 4.14 `String.take` is
implemented via byte positions, which blocks kernel evaluation, so its
character-list form is used throughout. -/
def strTake (s : String) (n : Nat) : String := ⟨s.data.take n⟩

/-- Model of `os.path.join dir name` for a relative final component
(the only way the code uses it). -/
def joinPath (dir name : String) : String :=
  if dir = "" then name
  else if dir.data.getLast? = some '/' then dir ++ name
  else dir ++ "/" ++ name

/-- Python `x or d` for an optional string `x`: `None` and `""` are falsy. -/
def optOr (x : Option String) (d : String) : String :=
  match x with
  | none => d
  | some s => if s = "" then d else s

/-- Python `str(x)`-style formatting of an optional string, as done by
`"...".format(...)` on the result of `.get("schema_version")`:
`None` prints as `"None"`. -/
def pyStrOpt (x : Option String) : String :=
  match x with
  | none => "None"
  | some s => s

/-- Trailing component of a path after `os.path.normpath`:
strip trailing slashes, then take the part after the last slash.
Models `os.path.basename(os.path.normpath(p))` for paths without
`.`/`..` segments (the code applies it to project and component dirs). -/
def baseNameNorm (p : String) : String :=
  let chars := (p.data.reverse.dropWhile (fun c => c = '/')).takeWhile (fun c => c ≠ '/')
  ⟨chars.reverse⟩

/-- Model of `os.path.splitext(b)[0]`: drop the extension after the last dot,
unless the only dot starts the name. -/
def splitextStem (b : String) : String :=
  let r := b.data.reverse
  let ext := r.takeWhile (fun c => c ≠ '.')
  if ext.length + 1 < b.data.length ∧ ext.length < r.length then
    ⟨(r.drop (ext.length + 1)).reverse⟩
  else b

/-! ## Natural sort keys (`intify` / `make_control_number_sort_key`,
opencontrol.py lines 89-96)

`re.split(r"(\d+)", s)` splits `s` at maximal digit runs and, because the
pattern is a capture group, keeps the digit runs in the output: the result
alternates a possibly-empty digit-free piece (even positions) with a
nonempty digit run (odd positions).  `splitDigitRuns` computes exactly that
list of pieces. -/

/-- One step of `splitDigitRuns`, prepending a character to the split of the
rest of the string. -/
def consDigitChunk (c : Char) (acc : List (List Char)) : List (List Char) :=
  match acc with
  | [] => [[c]]
  | t :: rest =>
    if pyIsDigit c then
      match t, rest with
      | [], d :: rest2 => [] :: (c :: d) :: rest2
      | _, _ => [] :: [c] :: t :: rest
    else (c :: t) :: rest

/-- Model of `re.split(r"(\d+)", s)` over the characters of `s`. -/
def splitDigitRuns (cs : List Char) : List (List Char) :=
  cs.foldr consDigitChunk [[]]

/-- An element of a Python sort-key tuple: either an integer (a converted
digit run) or a string piece. -/
inductive KeyElem where
  | num (n : Nat)
  | str (s : List Char)
deriving DecidableEq

/-- A sort key: the tuple produced by `make_control_number_sort_key`. -/
abbrev SKey := List KeyElem

def isNumElem : KeyElem → Bool
  | .num _ => true
  | .str _ => false

/-- Decimal value of a digit run (`int(s)` on an all-digit string). -/
def digitsToNat (l : List Char) : Nat :=
  l.foldl (fun acc c => acc * 10 + (c.toNat - 48)) 0

/-- Model of `intify` (opencontrol.py lines 89-93): `int(part)` when it succeeds,
the string otherwise.  The pieces fed to it are either nonempty all-digit
runs (where `int` yields the decimal value) or digit-free strings (where
`int` raises and the string is kept). -/
def intify (part : List Char) : KeyElem :=
  if part ≠ [] ∧ part.all pyIsDigit then .num (digitsToNat part) else .str part

/-- Model of `make_control_number_sort_key` (opencontrol.py lines 94-96):
`tuple(intify(part) for part in re.split(r"(\d+)", s or ""))`. -/
def make_control_number_sort_key (s : Option String) : SKey :=
  (splitDigitRuns (optOr s "").data).map intify

/-! Python comparison of sort keys.  CPython compares tuples element-wise,
using `==` to find the first differing position and then `<` there;
comparing an `int` with a `str` under `<` raises `TypeError`, which the
model renders as `none`. -/

def natCmp (a b : Nat) : Ordering :=
  if a < b then .lt else if a = b then .eq else .gt

/-- Python string comparison: lexicographic on code points. -/
def strCmp : List Char → List Char → Ordering
  | [], [] => .eq
  | [], _ :: _ => .lt
  | _ :: _, [] => .gt
  | a :: as, b :: bs =>
    match natCmp a.toNat b.toNat with
    | .eq => strCmp as bs
    | o => o

/-- Comparison of two tuple elements; `none` models Python `TypeError`
on an `int` vs `str` comparison. -/
def elemCmp : KeyElem → KeyElem → Option Ordering
  | .num a, .num b => some (natCmp a b)
  | .str a, .str b => some (strCmp a b)
  | _, _ => none

/-- Python `tuple.__lt__` on sort keys; `none` models `TypeError`. -/
def pyLt : SKey → SKey → Option Bool
  | [], [] => some false
  | [], _ :: _ => some true
  | _ :: _, [] => some false
  | a :: as, b :: bs =>
    match elemCmp a b with
    | none => none
    | some .lt => some true
    | some .gt => some false
    | some .eq => pyLt as bs

/-! ## Identifier generation (`short_hash`, opencontrol.py lines 6-10)

`short_hash` is `hashlib.sha256(s.encode("utf8")).hexdigest()[:len]`.
SHA-256 is implemented below over `Nat` with explicit `% 2^32` reductions.
-/

/-- UTF-8 encoding of one code point (`str.encode("utf8")`), as byte values. -/
def utf8Bytes (c : Char) : List Nat :=
  let n := c.toNat
  if n < 128 then [n]
  else if n < 2048 then [192 + n / 64, 128 + n % 64]
  else if n < 65536 then [224 + n / 4096, 128 + n / 64 % 64, 128 + n % 64]
  else [240 + n / 262144, 128 + n / 4096 % 64, 128 + n / 64 % 64, 128 + n % 64]

/-- The UTF-8 bytes of a string. -/
def strBytes (s : String) : List Nat :=
  s.data.flatMap utf8Bytes

def M32 : Nat := 4294967296

def rotr32 (x n : Nat) : Nat :=
  ((x >>> n) ||| (x <<< (32 - n))) % M32

def shr32 (x n : Nat) : Nat := x >>> n

def xor3 (a b c : Nat) : Nat := Nat.xor (Nat.xor a b) c

/-- Bitwise complement within 32 bits (input below `2^32`). -/
def not32 (x : Nat) : Nat := Nat.xor x 4294967295

/-- The SHA-256 round constants, in decimal (FIPS 180-4). -/
def shaK : List Nat :=
  [1116352408, 1899447441, 3049323471, 3921009573,
   961987163, 1508970993, 2453635748, 2870763221,
   3624381080, 310598401, 607225278, 1426881987,
   1925078388, 2162078206, 2614888103, 3248222580,
   3835390401, 4022224774, 264347078, 604807628,
   770255983, 1249150122, 1555081692, 1996064986,
   2554220882, 2821834349, 2952996808, 3210313671,
   3336571891, 3584528711, 113926993, 338241895,
   666307205, 773529912, 1294757372, 1396182291,
   1695183700, 1986661051, 2177026350, 2456956037,
   2730485921, 2820302411, 3259730800, 3345764771,
   3516065817, 3600352804, 4094571909, 275423344,
   430227734, 506948616, 659060556, 883997877,
   958139571, 1322822218, 1537002063, 1747873779,
   1955562222, 2024104815, 2227730452, 2361852424,
   2428436474, 2756734187, 3204031479, 3329325298]

/-- SHA-256 working state (eight 32-bit words as `Nat`). -/
structure SHAState where
  a : Nat
  b : Nat
  c : Nat
  d : Nat
  e : Nat
  f : Nat
  g : Nat
  h : Nat
deriving DecidableEq

def shaInit : SHAState :=
  ⟨1779033703, 3144134277, 1013904242, 2773480762,
   1359893119, 2600822924, 528734635, 1541459225⟩

/-- One SHA-256 compression round. -/
def shaRound (st : SHAState) (kw : Nat × Nat) : SHAState :=
  let S1 := xor3 (rotr32 st.e 6) (rotr32 st.e 11) (rotr32 st.e 25)
  let ch := Nat.xor (Nat.land st.e st.f) (Nat.land (not32 st.e) st.g)
  let temp1 := (st.h + S1 + ch + kw.1 + kw.2) % M32
  let S0 := xor3 (rotr32 st.a 2) (rotr32 st.a 13) (rotr32 st.a 22)
  let maj := xor3 (Nat.land st.a st.b) (Nat.land st.a st.c) (Nat.land st.b st.c)
  let temp2 := (S0 + maj) % M32
  ⟨(temp1 + temp2) % M32, st.a, st.b, st.c, (st.d + temp1) % M32, st.e, st.f, st.g⟩

/-- Extend the 16-word message schedule to 64 words. -/
def shaExtend (w : List Nat) : Nat → List Nat
  | 0 => w
  | n + 1 =>
    let i := w.length
    let x15 := w.getD (i - 15) 0
    let x2 := w.getD (i - 2) 0
    let s0 := xor3 (rotr32 x15 7) (rotr32 x15 18) (shr32 x15 3)
    let s1 := xor3 (rotr32 x2 17) (rotr32 x2 19) (shr32 x2 10)
    shaExtend (w ++ [(w.getD (i - 16) 0 + s0 + w.getD (i - 7) 0 + s1) % M32]) n

/-- Big-endian 32-bit words from a byte list whose length is a multiple of 4. -/
def bytesToWords : List Nat → List Nat
  | b0 :: b1 :: b2 :: b3 :: rest =>
    (b0 * 16777216 + b1 * 65536 + b2 * 256 + b3) :: bytesToWords rest
  | _ => []

/-- Process one 64-byte chunk. -/
def shaChunk (st : SHAState) (chunk : List Nat) : SHAState :=
  let w := shaExtend (bytesToWords chunk) 48
  let r := (shaK.zip w).foldl shaRound st
  ⟨(st.a + r.a) % M32, (st.b + r.b) % M32, (st.c + r.c) % M32, (st.d + r.d) % M32,
   (st.e + r.e) % M32, (st.f + r.f) % M32, (st.g + r.g) % M32, (st.h + r.h) % M32⟩

/-- Split a byte list into 64-byte chunks (the fuel argument makes the
recursion structural; `l.length` steps always suffice). -/
def chunks64Go : Nat → List Nat → List (List Nat)
  | 0, _ => []
  | _, [] => []
  | fuel + 1, b :: bs => ((b :: bs).take 64) :: chunks64Go fuel ((b :: bs).drop 64)

def chunks64 (l : List Nat) : List (List Nat) := chunks64Go l.length l

/-- SHA-256 padding: `0x80`, zeros to 56 mod 64, then the bit length as
eight big-endian bytes. -/
def shaPad (msg : List Nat) : List Nat :=
  let len := msg.length
  let bitLen := 8 * len
  msg ++ [128] ++ List.replicate ((119 - len % 64) % 64) 0 ++
    [bitLen / 72057594037927936 % 256, bitLen / 281474976710656 % 256,
     bitLen / 1099511627776 % 256, bitLen / 4294967296 % 256,
     bitLen / 16777216 % 256, bitLen / 65536 % 256,
     bitLen / 256 % 256, bitLen % 256]

/-- SHA-256 digest of a byte list, as eight 32-bit words. -/
def sha256Words (msg : List Nat) : List Nat :=
  let st := (chunks64 (shaPad msg)).foldl shaChunk shaInit
  [st.a, st.b, st.c, st.d, st.e, st.f, st.g, st.h]

/-- The sixteen lowercase hex digit characters. -/
def hexDigits : List Char := "0123456789abcdef".data

def hexChar (n : Nat) : Char := hexDigits.getD n '0'

/-- Eight lowercase hex characters of a 32-bit word, most significant first. -/
def wordHex (w : Nat) : List Char :=
  [hexChar (w / 268435456 % 16), hexChar (w / 16777216 % 16),
   hexChar (w / 1048576 % 16), hexChar (w / 65536 % 16),
   hexChar (w / 4096 % 16), hexChar (w / 256 % 16),
   hexChar (w / 16 % 16), hexChar (w % 16)]

/-- Model of `hashlib.sha256(s.encode("utf8")).hexdigest()`. -/
def sha256_hexdigest (s : String) : String :=
  ⟨(sha256Words (strBytes s)).flatMap wordHex⟩

/-- Model of `short_hash` (opencontrol.py lines 6-10).  The Python signature carries a
default `len=6`; every call site uses the default. -/
def short_hash (s : String) (len : Nat) : String :=
  strTake (sha256_hexdigest s) len

/-- The identifier pattern the spec calls `makeId` (spec section 4.1): the
source inlines `name[0:12] + "-" + short_hash(stable)` at opencontrol.py
lines 30, 33 and 73. -/
def make_id (name stable : String) : String :=
  strTake name 12 ++ "-" ++ short_hash stable 6

/-! ## `urllib.parse.quote_plus` (used when identifiers are embedded in URLs) -/

/-- Bytes that `urllib.parse.quote_plus` leaves unencoded:
ASCII letters, digits, and `_ . - ~`. -/
def quoteSafeByte (b : Nat) : Bool :=
  (48 ≤ b && b ≤ 57) || (65 ≤ b && b ≤ 90) || (97 ≤ b && b ≤ 122) ||
  b = 95 || b = 46 || b = 45 || b = 126

def hexCharUpper (n : Nat) : Char :=
  ("0123456789ABCDEF".data).getD n (Char.ofNat 48)

/-- Percent-encode one byte as `quote_plus` does (space becomes `+`). -/
def quotePlusByte (b : Nat) : List Char :=
  if quoteSafeByte b then [Char.ofNat b]
  else if b = 32 then ['+']
  else ['%', hexCharUpper (b / 16 % 16), hexCharUpper (b % 16)]

/-- Model of `urllib.parse.quote_plus`. -/
def quote_plus (s : String) : String :=
  ⟨(strBytes s).flatMap quotePlusByte⟩

/-! ## Data model records (the dictionaries built by opencontrol.py) -/

/-- The organization dictionary inside a project record
(opencontrol.py lines 37-41). -/
structure OrgRec where
  id : String
  name : String
  abbreviation : String
deriving DecidableEq

/-- The project dictionary returned by `load_project_from_path`
(opencontrol.py lines 35-49). -/
structure ProjectRec where
  id : String
  organization : OrgRec
  title : String
  path : String
  description : Option String
  url : String
deriving DecidableEq

/-- The component dictionary yielded by `load_project_components`
(opencontrol.py lines 75-81). -/
structure ComponentRec where
  project : ProjectRec
  id : String
  path : String
  name : String
  url : String
deriving DecidableEq

/-- The fields of the system manifest `opencontrol.yaml` that
opencontrol.py reads.  `Option` marks keys read with `.get` (absent keys
yield `None`); the organization fields model
`metadata.organization.{name,abbreviation}`. -/
structure SystemManifest where
  schema_version : Option String
  name : Option String
  metadata_description : Option String
  metadata_organization_name : Option String
  metadata_organization_abbreviation : Option String
  components : List String
  standards : List String
deriving DecidableEq

/-- A narrative fragment inside a `satisfies` entry of a component
manifest: optional `key`, required `text`, plus untouched extra keys. -/
structure NarrativePart where
  key : Option String
  text : String
  other : List (String × String)
deriving DecidableEq

/-- A `satisfies` entry of a component manifest (OpenControl v3 format,
as read by opencontrol.py): required `standard_key`, `control_key` and
`name`, a `narrative` list (read with `.get("narrative", [])`, so an
absent key is the empty list), plus untouched extra keys. -/
structure OCSatEntry where
  standard_key : String
  control_key : String
  name : String
  narrative : List NarrativePart
  other : List (String × String)
deriving DecidableEq

/-- A parsed `component.yaml` document as opencontrol.py reads it. -/
structure ComponentDoc where
  schema_version : Option String
  name : Option String
  satisfies : List OCSatEntry
  other : List (String × String)
deriving DecidableEq

/-- A control entry of a standard catalog as built by
`load_project_standards` (opencontrol.py lines 130-142). -/
structure CatControl where
  id : String
  sort_key : String × SKey
  number : String
  name : String
  family : String
  description : String
deriving DecidableEq

/-- A family entry of a standard catalog as built by
`load_project_standards` (opencontrol.py lines 143-153). -/
structure CatFamily where
  id : String
  sort_key : String
  number : String
  name : String
deriving DecidableEq

/-- A standard as built by `load_project_standards` (opencontrol.py
lines 127-154); `controls` and `families` are the mappings keyed by
control number and family id. -/
structure Standard where
  id : String
  name : String
  controls : List (String × CatControl)
  families : List (String × CatFamily)
deriving DecidableEq

/-- The `standard` sub-dictionary of a control-implementation record
(opencontrol.py lines 177-180). -/
structure StdRef where
  id : String
  name : String
deriving DecidableEq

/-- The `family` sub-dictionary of a control-implementation record
(opencontrol.py lines 181-185); `id` and `number` appear only after the
catalog-family overlay (`dict.update`, line 211).  The source key
`abbrev` is a Lean keyword, hence the field name `abbrv`. -/
structure FamMeta where
  abbrv : String
  name : String
  sort_key : String
  id : Option String
  number : Option String
deriving DecidableEq

/-- The `control` sub-dictionary of a control-implementation record
(opencontrol.py lines 186-196); `family` and `description` appear only
after the catalog-control overlay (`dict.update`, line 207). -/
structure CtlMeta where
  id : String
  sort_key : String × SKey
  number : String
  name : String
  url : String
  family : Option String
  description : Option String
deriving DecidableEq

/-- One control-implementation record as yielded by
`load_project_component_controls` (opencontrol.py lines 216-223). -/
structure ControlImpl where
  component : ComponentRec
  standard : StdRef
  family : FamMeta
  control : CtlMeta
  source_file : String
  control_part : Option String
  sort_key : (String × SKey) × SKey
  narrative : String
deriving DecidableEq

/-! ## Hierarchical document loader (opencontrol.py lines 12-87)

File reading and YAML parsing are I/O collaborators: each loader takes the
parsed document(s) as arguments.  A raised `ValueError` is `Except.error`
carrying the message the source formats. -/

/-- The schema error message of opencontrol.py line 21 / 60 / 106 / 114
(for system files) with `fn` the file path and `v` the schema tag. -/
def systemSchemaMsg (fn : String) (v : Option String) : String :=
  "Don\x27t know how to read OpenControl system file " ++ fn ++
    " which has schema_version " ++ pyStrOpt v ++ "."

/-- The schema error message of opencontrol.py line 67 / 166
(for component files). -/
def componentSchemaMsg (fn : String) (v : Option String) : String :=
  "Don\x27t know how to read OpenControl component file " ++ fn ++
    " which has schema_version " ++ pyStrOpt v ++ "."

/-- Model of `load_project_from_path` (opencontrol.py lines 12-49), with the parsed
`opencontrol.yaml` passed in place of the file read. -/
def load_project_from_path (project_dir : String) (opencontrol : SystemManifest) :
    Except String ProjectRec :=
  let fn := joinPath project_dir "opencontrol.yaml"
  if opencontrol.schema_version ≠ some "1.0.0" then
    .error (systemSchemaMsg fn opencontrol.schema_version)
  else
    let name := optOr opencontrol.name (splitextStem (baseNameNorm project_dir))
    let description := opencontrol.metadata_description
    let organization_name :=
      (opencontrol.metadata_organization_name).getD "No Organization"
    let organization_abbrev :=
      (opencontrol.metadata_organization_abbreviation).getD organization_name
    let organization_id := strTake organization_abbrev 12 ++ "-" ++ short_hash organization_name 6
    let project_id := strTake name 12 ++ "-" ++ short_hash fn 6
    .ok
      { id := project_id
        organization :=
          { id := organization_id
            name := organization_name
            abbreviation := organization_abbrev }
        title := name
        path := project_dir
        description := description
        url := "/organizations/" ++ quote_plus organization_id ++
          "/projects/" ++ quote_plus project_id }

/-- The component record built for one declared component path
(opencontrol.py lines 62-81), with the parsed `component.yaml` passed in. -/
def load_one_component (project : ProjectRec) (component_path : String)
    (component : ComponentDoc) : Except String ComponentRec :=
  let fn2 := joinPath (joinPath project.path component_path) "component.yaml"
  if component.schema_version ≠ some "3.0.0" then
    .error (componentSchemaMsg fn2 component.schema_version)
  else
    let name := optOr component.name (splitextStem (baseNameNorm component_path))
    let component_id := strTake name 12 ++ "-" ++ short_hash component_path 6
    .ok
      { project := project
        id := component_id
        path := joinPath project.path component_path
        name := name
        url := project.url ++ "/components/" ++ quote_plus component_id }

/-- Model of `load_project_components` (opencontrol.py lines 51-81): re-reads the
system manifest, then loads each declared component.  `readComponent`
stands for opening `component.yaml` under the given component path.
The Python generator yields lazily; the model materializes the sequence,
with the first schema failure aborting the whole list. -/
def load_project_components (project : ProjectRec) (opencontrol : SystemManifest)
    (readComponent : String → ComponentDoc) : Except String (List ComponentRec) :=
  let fn1 := joinPath project.path "opencontrol.yaml"
  if opencontrol.schema_version ≠ some "1.0.0" then
    .error (systemSchemaMsg fn1 opencontrol.schema_version)
  else
    opencontrol.components.mapM
      (fun component_path => load_one_component project component_path (readComponent component_path))

/-! ## Narrative aggregator (`load_project_component_controls`,
opencontrol.py lines 157-223) -/

/-- The `control_metadata` dictionary built for one `satisfies` entry
(opencontrol.py lines 175-211): base metadata from the component entry,
then the standard-name, catalog-control and catalog-family overlays. -/
structure CtlMetaBundle where
  component : ComponentRec
  standard : StdRef
  family : FamMeta
  control : CtlMeta
  source_file : String
deriving DecidableEq

/-- Model of `dict.update` of a catalog control entry onto the `control`
sub-dictionary (opencontrol.py line 207): every catalog key overwrites;
`url` is not a catalog key and survives. -/
def ctlOverlay (c : CtlMeta) (cat : CatControl) : CtlMeta :=
  { id := cat.id
    sort_key := cat.sort_key
    number := cat.number
    name := cat.name
    url := c.url
    family := some cat.family
    description := some cat.description }

/-- Model of `dict.update` of a catalog family entry onto the `family`
sub-dictionary (opencontrol.py line 211): `abbrev` is not a catalog key
and survives. -/
def famOverlay (f : FamMeta) (cat : CatFamily) : FamMeta :=
  { abbrv := f.abbrv
    name := cat.name
    sort_key := cat.sort_key
    id := some cat.id
    number := some cat.number }

/-- Python `control_key.split("-")[0]`: the part before the first dash
(the whole string when there is no dash). -/
def beforeFirstDash (s : String) : String :=
  ⟨s.data.takeWhile (fun c => c ≠ '-')⟩

/-- Build `control_metadata` for one `satisfies` entry
(opencontrol.py lines 175-211). -/
def build_control_metadata (component : ComponentRec)
    (standards : List (String × Standard)) (fn : String)
    (control : OCSatEntry) : CtlMetaBundle :=
  let pfx := beforeFirstDash control.control_key
  let base : CtlMetaBundle :=
    { component := component
      standard := { id := control.standard_key, name := control.standard_key }
      family := { abbrv := pfx, name := pfx, sort_key := pfx, id := none, number := none }
      control :=
        { id := control.control_key
          sort_key := (control.standard_key, make_control_number_sort_key (some control.control_key))
          number := control.control_key
          name := control.name
          url := component.project.url ++ "/controls/" ++
            quote_plus control.standard_key ++ "/" ++ quote_plus control.control_key
          family := none
          description := none }
      source_file := fn }
  match standards.lookup control.standard_key with
  | none => base
  | some std =>
    let m1 := { base with standard := { id := base.standard.id, name := std.name } }
    match std.controls.lookup control.control_key with
    | none => m1
    | some cat =>
      let m2 := { m1 with control := ctlOverlay m1.control cat }
      match m2.control.family with
      | none => m2
      | some famid =>
        match std.families.lookup famid with
        | none => m2
        | some fam => { m2 with family := famOverlay m2.family fam }

/-- One yielded control-implementation record for one narrative part
(opencontrol.py lines 216-223). -/
def build_controlimpl (meta : CtlMetaBundle) (narrative_part : NarrativePart) : ControlImpl :=
  { component := meta.component
    standard := meta.standard
    family := meta.family
    control := meta.control
    source_file := meta.source_file
    control_part := narrative_part.key
    sort_key := (meta.control.sort_key, make_control_number_sort_key narrative_part.key)
    narrative := narrative_part.text }

/-- Model of `load_project_component_controls` (opencontrol.py lines 157-223), with
the parsed `component.yaml` passed in.  The generator is materialized as a
list in yield order. -/
def load_project_component_controls (component : ComponentRec)
    (standards : List (String × Standard)) (component_opencontrol : ComponentDoc) :
    Except String (List ControlImpl) :=
  let fn := joinPath component.path "component.yaml"
  if component_opencontrol.schema_version ≠ some "3.0.0" then
    .error (componentSchemaMsg fn component_opencontrol.schema_version)
  else
    .ok (component_opencontrol.satisfies.flatMap
      (fun control =>
        (control.narrative.map
          (build_controlimpl (build_control_metadata component standards fn control)))))

/-! ## Targeted document updater (`update_component_control`,
opencontrol.py lines 225-247)

The function opens `controlimpl["source_file"]`, parses it, mutates the
matching narrative text in place, truncates the file and dumps the whole
document back.  The model takes the parsed document and returns the
document written back. -/

/-- Whether a `satisfies` entry matches the record being updated
(opencontrol.py lines 235-236). -/
def entryMatches (controlimpl : ControlImpl) (control : OCSatEntry) : Bool :=
  control.standard_key = controlimpl.standard.id ∧
    control.control_key = controlimpl.control.id

/-- The narrative-part mutation (opencontrol.py lines 238-241). -/
def updatePart (controlimpl : ControlImpl) (narrative_part : NarrativePart) : NarrativePart :=
  if narrative_part.key = controlimpl.control_part then
    { narrative_part with text := controlimpl.narrative }
  else narrative_part

/-- Model of `update_component_control` (opencontrol.py lines 225-247): the document
written back to `source_file`.  All matching entries and all matching parts
are mutated (the loops have no break). -/
def update_component_control (controlimpl : ControlImpl) (data : ComponentDoc) :
    ComponentDoc :=
  let newSatisfies := data.satisfies.map (fun control =>
    if entryMatches controlimpl control then
      { control with narrative := control.narrative.map (updatePart controlimpl) }
    else control)
  { data with satisfies := newSatisfies }

/-- The value `update_component_control` returns to its caller: the Python
function body (opencontrol.py lines 225-247) contains no `return`
statement, so every call returns `None`, whether or not a match was found.
`Option Bool` is the type a found/not-found report would inhabit. -/
def update_component_control_return (controlimpl : ControlImpl) (data : ComponentDoc) :
    Option Bool :=
  none

/-! ## Control resolver (`get_contol`, routes.py lines 167-189)

`re.split(r"(\s+|[^\w\s]+)", control_id)` splits at maximal whitespace runs
and maximal punctuation runs (characters neither word nor whitespace),
keeping the separator runs as their own list elements; between two adjacent
separator matches the split inserts an empty string.  `consSepChunk` builds
that list character by character from the right. -/

/-- One step of `splitSepRuns`: prepend a character to the split of the
rest of the string. -/
def consSepChunk (c : Char) (acc : List (List Char)) : List (List Char) :=
  match acc with
  | [] => [[c]]
  | t :: rest =>
    if pyIsWord c then (c :: t) :: rest
    else
      match t, rest with
      | [], sep :: rest2 =>
        match sep with
        | d :: _ =>
          if pyIsSpace c = pyIsSpace d then [] :: (c :: sep) :: rest2
          else [] :: [c] :: [] :: sep :: rest2
        | [] => [] :: [c] :: t :: rest
      | _, _ => [] :: [c] :: t :: rest

/-- Model of `re.split(r"(\s+|[^\w\s]+)", s)` over the characters of `s`. -/
def splitSepRuns (cs : List Char) : List (List Char) :=
  cs.foldr consSepChunk [[]]

/-- The `control_parts` list (routes.py line 173), as strings. -/
def splitTokens (control_id : String) : List String :=
  (splitSepRuns control_id.data).map (fun l => ⟨l⟩)

/-- A catalog entry as read from a standards YAML file by the routes layer:
`standard[test_id]["name"]` and `standard[test_id]["description"]`. -/
structure CatEntry where
  name : String
  description : String
deriving DecidableEq

/-- The record `get_contol` returns (routes.py lines 178-189). -/
structure CtlLookup where
  id : String
  name : String
  description : Option String
deriving DecidableEq

/-- The loop `for i in reversed(range(len(control_parts)))` of
routes.py lines 174-182: `getContolLoop std control_id parts (i+1)` tries
index `i` first, then `i-1`, ..., then `0`; `getContolLoop ... 0` is the
fallthrough to the synthetic record (routes.py lines 185-189). -/
def getContolLoop (standard : List (String × CatEntry)) (control_id : String)
    (control_parts : List String) : Nat → CtlLookup
  | 0 =>
    { id := control_id
      name := "[" ++ control_id ++ "]"
      description := none }
  | i + 1 =>
    let test_id := String.join (control_parts.take (i + 1))
    let id_remainder := String.join (control_parts.drop (i + 1))
    match standard.lookup test_id with
    | some e =>
      { id := control_id ++ (if id_remainder = "" then "" else id_remainder)
        name := e.name ++ (if id_remainder = "" then "" else " " ++ id_remainder)
        description :=
          if id_remainder = "" then some e.description
          else some ("See " ++ test_id ++ ", " ++ id_remainder ++ ".") }
    | none => getContolLoop standard control_id control_parts i

/-- Model of `get_contol` (routes.py lines 167-189; the name is the source spelling).
The catalog is the standards mapping; membership `test_id in standard` is
association-list lookup. -/
def get_contol (standard : List (String × CatEntry)) (control_id : String) : CtlLookup :=
  let control_parts := splitTokens control_id
  getContolLoop standard control_id control_parts control_parts.length

/-! ## Route-side updater (`update_control`, routes.py lines 618-664)

The routes layer stores control narratives in a flat per-entry format:
`control_key`, optional `control_key_part`, and scalar `summary`,
`narrative`, `implementation_status` fields. -/

/-- A `satisfies` entry in the routes-layer file format. -/
structure RtSatEntry where
  control_key : String
  control_key_part : Option String
  summary : Option String
  narrative : Option String
  implementation_status : Option String
  other : List (String × String)
deriving DecidableEq

/-- A parsed control-family file as `update_control` reads it. -/
structure RtDoc where
  satisfies : List RtSatEntry
  other : List (String × String)
deriving DecidableEq

/-- The POST form fields `update_control` reads; each is fetched with
`request.form.get(key, "")`, so an absent field is the empty string. -/
structure UpdateForm where
  control_key : String
  control_part : String
  summary : String
  narrative : String
  status : String
deriving DecidableEq

/-- Python `x or ""` on an optional string (`controldata.get("control_key_part") or ""`). -/
def optOrEmpty (x : Option String) : String :=
  match x with
  | none => ""
  | some s => s

/-- Python `str.strip()` on the ASCII whitespace set, over characters. -/
def stripChars (l : List Char) : List Char :=
  ((l.dropWhile pyIsSpace).reverse.dropWhile pyIsSpace).reverse

/-- Python `str.strip()`. -/
def pyStrip (s : String) : String :=
  ⟨stripChars s.data⟩

/-- One step of `groupRuns`: group consecutive characters by whether they
are whitespace. -/
def consRun (c : Char) (acc : List (List Char)) : List (List Char) :=
  match acc with
  | (d :: run) :: rest =>
    if pyIsSpace c = pyIsSpace d then (c :: d :: run) :: rest
    else [c] :: (d :: run) :: rest
  | _ => [c] :: acc

/-- Maximal runs of whitespace / non-whitespace characters. -/
def groupRuns (cs : List Char) : List (List Char) :=
  cs.foldr consRun []

/-- The effect of `re.sub(r"\s+\n", "\n", ...)` on one maximal whitespace
run: the regex match inside such a run extends from its start through its
last newline (greedy `\s+` backtracking to leave a final `\n`), exists only
when at least one character precedes that newline, and is replaced by a
single newline; the tail of the run after the last newline survives. -/
def collapseRun (run : List Char) : List Char :=
  if run.contains '\n' then
    let after := (run.reverse.takeWhile (fun c => c ≠ '\n')).reverse
    if 2 ≤ run.length - after.length then '\n' :: after else run
  else run

/-- Transform one run: whitespace runs are collapsed, others kept. -/
def stepRun (run : List Char) : List Char :=
  match run with
  | [] => []
  | d :: _ => if pyIsSpace d then collapseRun run else run

/-- Model of `re.sub(r"\s+\n", "\n", s)` (routes.py line 646): all regex matches
lie inside maximal whitespace runs, at most one per run. -/
def subWsNl (s : String) : String :=
  ⟨((groupRuns s.data).map stepRun).flatten⟩

/-- Model of `clean_text` (routes.py lines 642-649): strip, collapse whitespace
before newlines, and return `None` for an empty result. -/
def clean_text (text : String) : Option String :=
  let t := subWsNl (pyStrip text)
  if t = "" then none else some t

/-- Whether a routes-layer entry matches the posted form
(routes.py lines 638-639). -/
def rtMatches (form : UpdateForm) (controldata : RtSatEntry) : Bool :=
  controldata.control_key = form.control_key ∧
    optOrEmpty controldata.control_key_part = form.control_part

/-- The mutation applied to the matched entry (routes.py lines 651-653). -/
def rtUpdateEntry (form : UpdateForm) (controldata : RtSatEntry) : RtSatEntry :=
  { controldata with
      summary := clean_text form.summary
      narrative := clean_text form.narrative
      implementation_status := clean_text form.status }

/-- The scan of `data["satisfies"]` (routes.py lines 637-661): the file is
rewritten and `"OK"` returned at the first matching entry; entries after it
are untouched. -/
def rtUpdateFirst (form : UpdateForm) : List RtSatEntry → Option (List RtSatEntry)
  | [] => none
  | e :: rest =>
    if rtMatches form e then some (rtUpdateEntry form e :: rest)
    else
      match rtUpdateFirst form rest with
      | some rest2 => some (e :: rest2)
      | none => none

/-- Model of `update_control` (routes.py lines 618-664) restricted to one parsed
file: the pair of the document written back (unchanged when no entry
matches: the file is not rewritten) and the HTTP body returned
(`"OK"` or `"NOTFOUND"`).  Iteration over the component directory and
the config lookup are I/O collaborators. -/
def update_control_doc (form : UpdateForm) (data : RtDoc) : RtDoc × String :=
  match rtUpdateFirst form data.satisfies with
  | some newSatisfies => ({ data with satisfies := newSatisfies }, "OK")
  | none => (data, "NOTFOUND")

/-! ## Character-safety predicates for identifiers -/

/-- The character set the spec requires of identifiers used as URL path
segments: letters, digits, and the Identifier Generator separator `-`. -/
def urlSafeChar (c : Char) : Bool := c.isAlpha || c.isDigit || c = '-'

/-- Whether a character is a lowercase hexadecimal digit. -/
def isHexDigitChar (c : Char) : Bool := hexDigits.contains c

/-! ## Concrete fixtures used by witnesses and counterexamples -/

/-- A valid system manifest used as a concrete loader input. -/
def exManifest : SystemManifest :=
  ⟨some "1.0.0", some "Example System", some "Desc",
   some "ACME Corporation", some "ACME", [], []⟩

/-- The project record `load_project_from_path "/repo" exManifest` returns
(hash suffixes evaluated from the SHA-256 model). -/
def exProjectLoaded : ProjectRec :=
  { id := "Example Syst-f0bc58"
    organization := ⟨"ACME-aa354f", "ACME Corporation", "ACME"⟩
    title := "Example System"
    path := "/repo"
    description := some "Desc"
    url := "/organizations/ACME-aa354f/projects/Example+Syst-f0bc58" }

/-- A small organization/project/component context for aggregator and
updater fixtures (field values are arbitrary inputs). -/
def exProject : ProjectRec :=
  { id := "P-1"
    organization := ⟨"O-1", "Org", "O"⟩
    title := "Proj"
    path := "/repo"
    description := none
    url := "/organizations/O-1/projects/P-1" }

def exComponent : ComponentRec :=
  { project := exProject
    id := "C-1"
    path := "/repo/components/c1"
    name := "Component One"
    url := "/organizations/O-1/projects/P-1/components/C-1" }

/-- A parsed component document with two `satisfies` entries. -/
def exDoc : ComponentDoc :=
  { schema_version := some "3.0.0"
    name := some "Component One"
    satisfies :=
      [ { standard_key := "NIST-800-53"
          control_key := "AC-2"
          name := "Account Management"
          narrative := [⟨some "a", "old text a", [("x", "1")]⟩, ⟨some "b", "old text b", []⟩]
          other := [("implementation_status", "partial")] }
      , { standard_key := "NIST-800-53"
          control_key := "AU-1"
          name := "Audit Policy"
          narrative := [⟨some "a", "audit text", []⟩]
          other := [] } ]
    other := [("name", "Component One")] }

/-- A control-implementation record whose triple matches the first entry,
part `a`, of `exDoc`, carrying replacement narrative text. -/
def exImplMatch : ControlImpl :=
  { component := exComponent
    standard := ⟨"NIST-800-53", "NIST-800-53"⟩
    family := ⟨"AC", "AC", "AC", none, none⟩
    control :=
      ⟨"AC-2", ("NIST-800-53", make_control_number_sort_key (some "AC-2")),
       "AC-2", "Account Management",
       "/organizations/O-1/projects/P-1/controls/NIST-800-53/AC-2", none, none⟩
    source_file := "/repo/components/c1/component.yaml"
    control_part := some "a"
    sort_key :=
      (("NIST-800-53", make_control_number_sort_key (some "AC-2")),
       make_control_number_sort_key (some "a"))
    narrative := "new text" }

/-- The same record with a control id matching no entry of `exDoc`. -/
def exImplNoMatch : ControlImpl :=
  { exImplMatch with control := { exImplMatch.control with id := "AC-7" } }

/-- A matching record whose replacement narrative carries surrounding
whitespace. -/
def exImplWs : ControlImpl :=
  { exImplMatch with narrative := " x " }

/-- A routes-layer document and form for the route-side updater. -/
def exRtDoc : RtDoc :=
  { satisfies :=
      [ ⟨"AC-1", none, none, some "keep", none, []⟩
      , ⟨"AC-2", none, some "old summary", some "old narrative", some "none", [("y", "2")]⟩ ]
    other := [("name", "CivicActions")] }

def exForm : UpdateForm :=
  { control_key := "AC-2"
    control_part := ""
    summary := "sum"
    narrative := "  line one  
 line two  "
    status := "implemented" }

/-- A component document with one `satisfies` entry holding two narrative
fragments keyed `"a"` and `"b"`. -/
def exDocTwoParts : ComponentDoc :=
  { schema_version := some "3.0.0"
    name := some "Component One"
    satisfies :=
      [ { standard_key := "NIST-800-53"
          control_key := "AC-2"
          name := "Account Management"
          narrative := [⟨some "a", "text a", []⟩, ⟨some "b", "text b", []⟩]
          other := [] } ]
    other := [] }

/-- A component document with one `satisfies` entry holding no narrative
fragments. -/
def exDocNoParts : ComponentDoc :=
  { schema_version := some "3.0.0"
    name := some "Component One"
    satisfies :=
      [ { standard_key := "NIST-800-53"
          control_key := "AC-2"
          name := "Account Management"
          narrative := []
          other := [] } ]
    other := [] }

/-- A component document like `exDocTwoParts` but whose two fragments
carry the same text. -/
def exDocSameTexts : ComponentDoc :=
  { schema_version := some "3.0.0"
    name := some "Component One"
    satisfies :=
      [ { standard_key := "NIST-800-53"
          control_key := "AC-2"
          name := "Account Management"
          narrative := [⟨some "a", "same text", []⟩, ⟨some "b", "same text", []⟩]
          other := [] } ]
    other := [] }

/-! ## Proof-support predicates -/

/-- The shape of `re.split(r"(\d+)", s)` output: a digit-free piece, then
alternately a nonempty digit run and a digit-free piece. -/
inductive SplitShape : List (List Char) → Prop
  | last (t : List Char) : t.all (fun c => !pyIsDigit c) = true → SplitShape [t]
  | step (t d : List Char) (rest : List (List Char)) :
      t.all (fun c => !pyIsDigit c) = true → d ≠ [] → d.all pyIsDigit = true →
      SplitShape rest → SplitShape (t :: d :: rest)

/-- Alternation of element kinds in a sort key: `AltK false k` says string
elements sit at even positions and numbers at odd ones (`AltK true k` the
opposite). -/
inductive AltK : Bool → SKey → Prop
  | nil (b : Bool) : AltK b []
  | str (s : List Char) (rest : SKey) : AltK true rest → AltK false (.str s :: rest)
  | num (n : Nat) (rest : SKey) : AltK false rest → AltK true (.num n :: rest)

/-! ## Lemmas about the natural sort key -/

theorem natCmp_refl (n : Nat) : natCmp n n = .eq := by
  simp [natCmp]

theorem strCmp_refl (s : List Char) : strCmp s s = .eq := by
  induction s with
  | nil => rfl
  | cons a as ih => simp [strCmp, natCmp_refl, ih]

theorem elemCmp_refl (a : KeyElem) : elemCmp a a = some .eq := by
  cases a with
  | num n => simp [elemCmp, natCmp_refl]
  | str s => simp [elemCmp, strCmp_refl]

/-- A strict prefix of a tuple compares strictly less in Python. -/
theorem pyLt_append (k m : SKey) (hm : m ≠ []) : pyLt k (k ++ m) = some true := by
  induction k with
  | nil =>
    cases m with
    | nil => exact absurd rfl hm
    | cons x xs => simp [pyLt]
  | cons a as ih => simpa [pyLt, elemCmp_refl] using ih

theorem shape_consDigitChunk (c : Char) (acc : List (List Char))
    (h : SplitShape acc) : SplitShape (consDigitChunk c acc) := by
  cases h with
  | last t ht =>
    by_cases hd : pyIsDigit c = true
    · have hshape : SplitShape ([] :: [c] :: [t]) := by
        refine SplitShape.step [] [c] [t] (by simp) (by simp) (by simp [hd]) ?_
        exact SplitShape.last t ht
      cases t with
      | nil => simpa [consDigitChunk, hd] using hshape
      | cons a t2 => simpa [consDigitChunk, hd] using hshape
    · have hd2 : pyIsDigit c = false := by simpa using hd
      have hshape : SplitShape [c :: t] := by
        refine SplitShape.last (c :: t) ?_
        simp [List.all_cons, hd2, ht]
      simpa [consDigitChunk, hd2] using hshape
  | step t d rest ht hdne hdall hrest =>
    by_cases hd : pyIsDigit c = true
    · cases t with
      | nil =>
        have hshape : SplitShape ([] :: (c :: d) :: rest) := by
          refine SplitShape.step [] (c :: d) rest (by simp) (by simp) ?_ hrest
          simp [List.all_cons, hd, hdall]
        simpa [consDigitChunk, hd] using hshape
      | cons a t2 =>
        have hshape : SplitShape ([] :: [c] :: (a :: t2) :: d :: rest) := by
          refine SplitShape.step [] [c] _ (by simp) (by simp) (by simp [hd]) ?_
          exact SplitShape.step _ _ _ ht hdne hdall hrest
        simpa [consDigitChunk, hd] using hshape
    · have hd2 : pyIsDigit c = false := by simpa using hd
      have hshape : SplitShape ((c :: t) :: d :: rest) := by
        refine SplitShape.step (c :: t) d rest ?_ hdne hdall hrest
        simp [List.all_cons, hd2, ht]
      simpa [consDigitChunk, hd2] using hshape

theorem shape_splitDigitRuns (cs : List Char) : SplitShape (splitDigitRuns cs) := by
  induction cs with
  | nil => exact SplitShape.last [] (by simp)
  | cons c cs ih => exact shape_consDigitChunk c _ ih

theorem intify_of_nondigit (t : List Char)
    (ht : t.all (fun c => !pyIsDigit c) = true) : intify t = .str t := by
  cases t with
  | nil => simp [intify]
  | cons a t2 =>
    have ha : pyIsDigit a = false := by
      have h2 := ht
      simp [List.all_cons] at h2
      simpa using h2.1
    simp [intify, List.all_cons, ha]

theorem intify_of_digits (d : List Char) (hne : d ≠ [])
    (hall : d.all pyIsDigit = true) : intify d = .num (digitsToNat d) := by
  simp [intify, hne, hall]

theorem altk_map_intify (l : List (List Char)) (h : SplitShape l) :
    AltK false (l.map intify) := by
  induction h with
  | last t ht =>
    rw [List.map_cons, List.map_nil, intify_of_nondigit t ht]
    exact AltK.str t [] (AltK.nil true)
  | step t d rest ht hdne hdall hrest ih =>
    rw [List.map_cons, List.map_cons, intify_of_nondigit t ht,
      intify_of_digits d hdne hdall]
    exact AltK.str t _ (AltK.num _ _ ih)

theorem altk_pyLt_isSome (k1 : SKey) : ∀ (b : Bool) (k2 : SKey),
    AltK b k1 → AltK b k2 → (pyLt k1 k2).isSome = true := by
  induction k1 with
  | nil =>
    intro b k2 _ _
    cases k2 <;> simp [pyLt]
  | cons a as ih =>
    intro b k2 h1 h2
    cases h1 with
    | str s rest hrest1 =>
      cases h2 with
      | nil => simp [pyLt]
      | str s2 rest2 hrest2 =>
        simp only [pyLt, elemCmp]
        rcases hc : strCmp s s2 with _ | _ | _
        · simp [hc]
        · simpa [hc] using ih true rest2 hrest1 hrest2
        · simp [hc]
    | num n rest hrest1 =>
      cases h2 with
      | nil => simp [pyLt]
      | num n2 rest2 hrest2 =>
        simp only [pyLt, elemCmp]
        rcases hc : natCmp n n2 with _ | _ | _
        · simp [hc]
        · simpa [hc] using ih false rest2 hrest1 hrest2
        · simp [hc]

theorem altk_get {b : Bool} {k : SKey} (h : AltK b k) :
    ∀ (i : Nat) (hi : i < k.length),
      (isNumElem (k.get ⟨i, hi⟩) = true ↔ (i + b.toNat) % 2 = 1) := by
  induction h with
  | nil b => intro i hi; simp at hi
  | str s rest hrest ih =>
    intro i hi
    cases i with
    | zero => simp [List.get, isNumElem]
    | succ j =>
      have hj := ih j (by simpa using hi)
      simp only [List.get, Bool.toNat] at hj ⊢
      rw [hj]
      simp only [cond_true, cond_false]
      try omega
  | num n rest hrest ih =>
    intro i hi
    cases i with
    | zero => simp [List.get, isNumElem]
    | succ j =>
      have hj := ih j (by simpa using hi)
      simp only [List.get, Bool.toNat] at hj ⊢
      rw [hj]
      simp only [cond_true, cond_false]
      try omega

theorem altk_sort_key (s : Option String) :
    AltK false (make_control_number_sort_key s) :=
  altk_map_intify _ (shape_splitDigitRuns _)

/-- Claim C4: `make_control_number_sort_key` orders "AC-2" strictly before
"AC-10" under Python tuple comparison; for every input and every nonempty
further part appended to its key, the key compares strictly before the
composite; and the key of absent input (`None`) equals the key of the empty
string. -/
theorem C4_natural_sort_order :
    pyLt (make_control_number_sort_key (some "AC-2"))
      (make_control_number_sort_key (some "AC-10")) = some true ∧
    (∀ (s : Option String) (m : SKey), m ≠ [] →
      pyLt (make_control_number_sort_key s)
        (make_control_number_sort_key s ++ m) = some true) ∧
    make_control_number_sort_key none = make_control_number_sort_key (some "") := by
  refine ⟨by decide, fun s m hm => pyLt_append _ m hm, rfl⟩

/-- Witness for C4 at a concrete appended part. -/
theorem C4_natural_sort_order_witness :
    pyLt (make_control_number_sort_key (some "AC-2"))
      (make_control_number_sort_key (some "AC-2") ++ [KeyElem.num 3]) = some true :=
  C4_natural_sort_order.2.1 (some "AC-2") [KeyElem.num 3] (by decide)

/-- Claim C10: in every key `make_control_number_sort_key` produces,
integers (converted digit runs) occupy exactly the odd positions and
strings exactly the even positions, so Python tuple comparison of two such
keys never compares an integer against a string at the same position
(no `TypeError`: `pyLt` is never `none`). -/
theorem C10_sort_key_kind_safety (s t : Option String) :
    (pyLt (make_control_number_sort_key s) (make_control_number_sort_key t)).isSome = true ∧
    ∀ (i : Nat) (hi : i < (make_control_number_sort_key s).length),
      (isNumElem ((make_control_number_sort_key s).get ⟨i, hi⟩) = true ↔ i % 2 = 1) := by
  have h1 : AltK false (make_control_number_sort_key s) := altk_sort_key s
  have h2 : AltK false (make_control_number_sort_key t) := altk_sort_key t
  refine ⟨altk_pyLt_isSome _ false _ h1 h2, fun i hi => ?_⟩
  simpa using altk_get h1 i hi

/-- Witness for C10 at concrete inputs and a concrete odd position. -/
theorem C10_sort_key_kind_safety_witness :
    (pyLt (make_control_number_sort_key (some "AC-2"))
      (make_control_number_sort_key (some "x7"))).isSome = true ∧
    (isNumElem ((make_control_number_sort_key (some "AC-2")).get ⟨1, by decide⟩) = true ↔
      1 % 2 = 1) :=
  ⟨(C10_sort_key_kind_safety (some "AC-2") (some "x7")).1,
   (C10_sort_key_kind_safety (some "AC-2") (some "x7")).2 1 (by decide)⟩

/-! ## Schema gate (Claim C6) -/

/-- Claim C6: a system manifest whose `schema_version` differs from
`"1.0.0"` makes `load_project_from_path` raise the unsupported-schema
`ValueError` (modelled as `Except.error` carrying the formatted message):
the call is a hard failure and returns no project record at all, so no
partial load occurs. -/
theorem C6_schema_gate (project_dir : String) (m : SystemManifest)
    (h : m.schema_version ≠ some "1.0.0") :
    load_project_from_path project_dir m =
      .error (systemSchemaMsg (joinPath project_dir "opencontrol.yaml") m.schema_version) := by
  unfold load_project_from_path
  rw [if_pos h]

/-- Witness for C6 at `schema_version: "0.9.0"`. -/
theorem C6_schema_gate_witness :
    load_project_from_path "/repo" ⟨some "0.9.0", some "Example System", none, none, none, [], []⟩ =
      .error (systemSchemaMsg (joinPath "/repo" "opencontrol.yaml") (some "0.9.0")) :=
  C6_schema_gate "/repo" ⟨some "0.9.0", some "Example System", none, none, none, [], []⟩ (by decide)

/-! ## Identifier generation lemmas (Claims C9 and C3) -/

theorem sha256Words_length (msg : List Nat) : (sha256Words msg).length = 8 := rfl

theorem flatMap_wordHex_length (l : List Nat) : (l.flatMap wordHex).length = 8 * l.length := by
  induction l with
  | nil => simp
  | cons w ws ih =>
    rw [List.flatMap_cons, List.length_append, ih]
    simp [wordHex]
    ring

theorem sha256_hexdigest_length (s : String) : (sha256_hexdigest s).data.length = 64 := by
  show ((sha256Words (strBytes s)).flatMap wordHex).length = 64
  rw [flatMap_wordHex_length, sha256Words_length]

theorem short_hash_data_length (s : String) : (short_hash s 6).data.length = 6 := by
  show ((sha256_hexdigest s).data.take 6).length = 6
  rw [List.length_take, sha256_hexdigest_length]
  decide

theorem hexChar_mem (n : Nat) : hexChar n ∈ hexDigits := by
  unfold hexChar
  rcases Nat.lt_or_ge n 16 with h | h
  · interval_cases n <;> decide
  · rw [List.getD_eq_default]
    · decide
    · have h16 : hexDigits.length = 16 := rfl
      omega

theorem wordHex_mem (w : Nat) : ∀ c ∈ wordHex w, c ∈ hexDigits := by
  intro c hc
  simp only [wordHex, List.mem_cons, List.not_mem_nil, or_false] at hc
  rcases hc with h|h|h|h|h|h|h|h <;> (subst h; exact hexChar_mem _)

theorem short_hash_mem_hex (s : String) : ∀ c ∈ (short_hash s 6).data, c ∈ hexDigits := by
  intro c hc
  have hc2 : c ∈ (sha256_hexdigest s).data := List.mem_of_mem_take hc
  have hc3 : c ∈ (sha256Words (strBytes s)).flatMap wordHex := hc2
  rw [List.mem_flatMap] at hc3
  obtain ⟨w, _, hw⟩ := hc3
  exact wordHex_mem w c hw

theorem hexDigit_urlSafe : ∀ c ∈ hexDigits, urlSafeChar c = true := by decide

theorem short_hash_urlSafe (s : String) : (short_hash s 6).data.all urlSafeChar = true := by
  rw [List.all_eq_true]
  intro c hc
  exact hexDigit_urlSafe c (short_hash_mem_hex s c hc)

theorem short_hash_isHex (s : String) : (short_hash s 6).data.all isHexDigitChar = true := by
  rw [List.all_eq_true]
  intro c hc
  have := short_hash_mem_hex s c hc
  simp [isHexDigitChar, List.contains, this]

/-- Data of a concatenation of strings. -/
theorem string_append_data (a b : String) : (a ++ b).data = a.data ++ b.data := rfl

/-- Claim C9: `make_id` (the inlined identifier pattern of opencontrol.py
lines 30, 33 and 73) is exactly the first 12 characters of the name, a
dash, and the first 6 hexadecimal digits of the SHA-256 hex digest of the
stable source; the hash part has length 6 and consists of hex digits only;
the function is deterministic (equal inputs give equal ids); and the
project id built by `load_project_from_path` follows this pattern with the
manifest title and manifest path as inputs. -/
theorem C9_make_id_shape :
    (∀ name stable : String,
      make_id name stable = strTake name 12 ++ "-" ++ strTake (sha256_hexdigest stable) 6) ∧
    (∀ stable : String, (short_hash stable 6).data.length = 6 ∧
      (short_hash stable 6).data.all isHexDigitChar = true) ∧
    (∀ n1 n2 s1 s2 : String, n1 = n2 → s1 = s2 → make_id n1 s1 = make_id n2 s2) ∧
    (∀ (dir : String) (m : SystemManifest) (p : ProjectRec),
      load_project_from_path dir m = .ok p →
      p.id = make_id (optOr m.name (splitextStem (baseNameNorm dir)))
        (joinPath dir "opencontrol.yaml")) := by
  refine ⟨fun name stable => rfl,
    fun stable => ⟨short_hash_data_length stable, short_hash_isHex stable⟩,
    fun n1 n2 s1 s2 h1 h2 => by rw [h1, h2],
    fun dir m p h => ?_⟩
  unfold load_project_from_path at h
  split at h
  · simp at h
  · simp only [Except.ok.injEq] at h
    subst h
    rfl

/-- Witness for C9: the loaded project id at a concrete manifest (hash
value evaluated from the SHA-256 model) follows the `make_id` pattern. -/
theorem C9_make_id_shape_witness :
    make_id "Example" "p" = make_id "Example" "p" ∧
    exProjectLoaded.id = make_id (optOr exManifest.name (splitextStem (baseNameNorm "/repo")))
      (joinPath "/repo" "opencontrol.yaml") :=
  ⟨C9_make_id_shape.2.2.1 "Example" "Example" "p" "p" rfl rfl,
   C9_make_id_shape.2.2.2 "/repo" exManifest exProjectLoaded (by decide)⟩

/-! ## Identifier character-set (Claim C3) -/

/-- Counterexample to Claim C3 as stated: with organization abbreviation
`"My Org"`, `load_project_from_path` generates an organization id whose
12-character prefix carries the space verbatim, so the id is not composed
of letters, digits and the separator set, and is not percent-encoding-safe
as generated. -/
theorem C3_counterexample :
    (load_project_from_path "/repo"
      ⟨some "1.0.0", some "Example System", none, some "ACME Corporation",
       some "My Org", [], []⟩).map
      (fun p => p.organization.id.data.all urlSafeChar) = .ok false := by
  decide

/-- Claim C3 (amended): every identifier is the first 12 characters of its
name (or abbreviation) carried verbatim, a dash, and a 6-character
lowercase-hex hash suffix.  The dash and the hash suffix are always
letters/digits/`-`, and the whole identifier is percent-encoding-safe
exactly when the carried name prefix is; for names with characters outside
that set, the identifier is unsafe as generated, which is why the code
passes identifiers through `quote_plus` when building URLs. -/
theorem C3_identifier_charset_amended :
    (∀ stable : String, (short_hash stable 6).data.all urlSafeChar = true) ∧
    (∀ name stable : String, (strTake name 12).data.all urlSafeChar = true →
      (make_id name stable).data.all urlSafeChar = true) ∧
    (∀ (dir : String) (m : SystemManifest) (p : ProjectRec),
      load_project_from_path dir m = .ok p →
      p.organization.id = make_id p.organization.abbreviation p.organization.name ∧
      p.id = make_id p.title (joinPath dir "opencontrol.yaml")) ∧
    (∀ (proj : ProjectRec) (cp : String) (cdoc : ComponentDoc) (c : ComponentRec),
      load_one_component proj cp cdoc = .ok c → c.id = make_id c.name cp) := by
  refine ⟨short_hash_urlSafe, ?_, ?_, ?_⟩
  · intro name stable h
    show ((strTake name 12 ++ "-" ++ short_hash stable 6)).data.all urlSafeChar = true
    rw [string_append_data, string_append_data, List.all_append, List.all_append]
    simp only [h, short_hash_urlSafe, Bool.and_true, Bool.true_and]
    decide
  · intro dir m p h
    unfold load_project_from_path at h
    split at h
    · simp at h
    · simp only [Except.ok.injEq] at h
      subst h
      exact ⟨rfl, rfl⟩
  · intro proj cp cdoc c h
    unfold load_one_component at h
    split at h
    · simp at h
    · simp only [Except.ok.injEq] at h
      subst h
      rfl

/-- Witness for the amended C3: a safe name prefix gives a fully safe id,
and the loaded organization id at a concrete manifest follows the
`make_id` pattern. -/
theorem C3_identifier_charset_amended_witness :
    (make_id "NIST80053rev4" "standards/x.yaml").data.all urlSafeChar = true ∧
    exProjectLoaded.organization.id =
      make_id exProjectLoaded.organization.abbreviation exProjectLoaded.organization.name :=
  ⟨C3_identifier_charset_amended.2.1 "NIST80053rev4" "standards/x.yaml" (by decide),
   (C3_identifier_charset_amended.2.2.1 "/repo" exManifest exProjectLoaded (by decide)).1⟩

/-! ## Narrative aggregation (Claim C5) -/

/-- Counterexample to Claim C5 as stated: when the two fragments keyed
`"a"` and `"b"` carry the same text, the two yielded records have equal
(not distinct) `narrative` values, while their `control_part` values still
differ. -/
theorem C5_counterexample :
    (load_project_component_controls exComponent [] exDocSameTexts).map
      (fun l => l.map (fun r => (r.control_part, r.narrative))) =
      .ok [(some "a", "same text"), (some "b", "same text")] := by
  decide

/-- Claim C5 (amended): for a component manifest declaring one `satisfies`
entry with exactly two narrative fragments keyed `"a"` and `"b"`,
`load_project_component_controls` yields exactly two control-implementation
records carrying the same merged control/standard metadata, each holding
its own fragment's key and text, with distinct `control_part` and
`sort_key`; the `narrative` values are distinct exactly when the two
fragment texts differ (stated here under that hypothesis — the
counterexample shows equal texts give equal narratives).  In general the
number of yielded records equals the total number of declared narrative
fragments, so an entry declared with zero fragments contributes zero
records. -/
theorem C5_aggregation :
    (∀ (component : ComponentRec) (standards : List (String × Standard))
       (doc : ComponentDoc) (e : OCSatEntry) (pa pb : NarrativePart),
      doc.schema_version = some "3.0.0" →
      doc.satisfies = [e] →
      e.narrative = [pa, pb] →
      pa.key = some "a" → pb.key = some "b" → pa.text ≠ pb.text →
      ∃ r1 r2 : ControlImpl,
        load_project_component_controls component standards doc = .ok [r1, r2] ∧
        r1.component = r2.component ∧ r1.standard = r2.standard ∧
        r1.family = r2.family ∧ r1.control = r2.control ∧
        r1.source_file = r2.source_file ∧
        r1.control_part = some "a" ∧ r2.control_part = some "b" ∧
        r1.narrative = pa.text ∧ r2.narrative = pb.text ∧
        r1.control_part ≠ r2.control_part ∧
        r1.narrative ≠ r2.narrative ∧
        r1.sort_key ≠ r2.sort_key) ∧
    (∀ (component : ComponentRec) (standards : List (String × Standard))
       (doc : ComponentDoc) (l : List ControlImpl),
      doc.schema_version = some "3.0.0" →
      load_project_component_controls component standards doc = .ok l →
      l.length = (doc.satisfies.map (fun e => e.narrative.length)).sum) := by
  constructor
  · intro component standards doc e pa pb hs hsat hn hka hkb htext
    refine ⟨build_controlimpl (build_control_metadata component standards
        (joinPath component.path "component.yaml") e) pa,
      build_controlimpl (build_control_metadata component standards
        (joinPath component.path "component.yaml") e) pb, ?_, ?_, ?_, ?_, ?_, ?_, ?_, ?_, ?_, ?_, ?_, ?_, ?_⟩
    · simp [load_project_component_controls, hs, hsat, hn]
    · rfl
    · rfl
    · rfl
    · rfl
    · rfl
    · simpa [build_controlimpl] using hka
    · simpa [build_controlimpl] using hkb
    · rfl
    · rfl
    · simp [build_controlimpl, hka, hkb]
    · simpa [build_controlimpl] using htext
    · have hkey : make_control_number_sort_key (some "a") ≠
          make_control_number_sort_key (some "b") := by decide
      simp only [build_controlimpl, hka, hkb, ne_eq, Prod.mk.injEq, not_and]
      intro _ hcontra
      exact hkey hcontra
  · intro component standards doc l hs hl
    unfold load_project_component_controls at hl
    rw [if_neg (by simp [hs])] at hl
    simp only [Except.ok.injEq] at hl
    subst hl
    rw [List.length_flatMap]
    congr 1
    refine List.map_congr_left (fun e he => ?_)
    simp [List.length_map]

/-- Witness for C5 at a concrete component document. -/
theorem C5_aggregation_witness :
    (∃ r1 r2 : ControlImpl,
      load_project_component_controls exComponent [] exDocTwoParts = .ok [r1, r2] ∧
      r1.component = r2.component ∧ r1.standard = r2.standard ∧
      r1.family = r2.family ∧ r1.control = r2.control ∧
      r1.source_file = r2.source_file ∧
      r1.control_part = some "a" ∧ r2.control_part = some "b" ∧
      r1.narrative = "text a" ∧ r2.narrative = "text b" ∧
      r1.control_part ≠ r2.control_part ∧
      r1.narrative ≠ r2.narrative ∧
      r1.sort_key ≠ r2.sort_key) ∧
    ([] : List ControlImpl).length =
      (exDocNoParts.satisfies.map (fun e => e.narrative.length)).sum :=
  ⟨C5_aggregation.1 exComponent [] exDocTwoParts _ _ _ rfl rfl rfl rfl rfl (by decide),
   C5_aggregation.2 exComponent [] exDocNoParts [] rfl (by decide)⟩

/-! ## Targeted update frame property (Claim C7) -/

theorem map_eq_self_of_get {α : Type} (l : List α) (f : α → α)
    (h : ∀ (j : Nat) (hj : j < l.length), f (l.get ⟨j, hj⟩) = l.get ⟨j, hj⟩) :
    l.map f = l := by
  induction l with
  | nil => rfl
  | cons a t ih =>
    have h0 : f a = a := by simpa [List.get] using h 0 (by simp)
    rw [List.map_cons, h0]
    congr 1
    exact ih (fun j hj => by simpa [List.get] using h (j + 1) (by simp; omega))

theorem map_eq_set_of_get {α : Type} (l : List α) (f : α → α) (i : Nat) (hi : i < l.length)
    (h : ∀ (j : Nat) (hj : j < l.length), j ≠ i → f (l.get ⟨j, hj⟩) = l.get ⟨j, hj⟩) :
    l.map f = l.set i (f (l.get ⟨i, hi⟩)) := by
  induction l generalizing i with
  | nil => simp at hi
  | cons a t ih =>
    cases i with
    | zero =>
      simp only [List.map_cons, List.set, List.get]
      congr 1
      refine map_eq_self_of_get t f (fun j hj => ?_)
      simpa [List.get] using h (j + 1) (by simp; omega) (by simp)
    | succ m =>
      have h0 : f a = a := by simpa [List.get] using h 0 (by simp) (by simp)
      simp only [List.map_cons, List.set, h0, List.get]
      congr 1
      refine ih m (by simpa using hi) (fun j hj hne => ?_)
      simpa [List.get] using h (j + 1) (by simp; omega) (fun h2 => hne (Nat.succ_injective h2))

/-- Claim C7: when exactly one `satisfies` entry matches the record (and
within it exactly one narrative fragment matches the part key), the
document `update_component_control` writes back is exactly the input
document with only that fragment text replaced: every other field, every
other record, and the record ordering are preserved. -/
theorem C7_update_preserves_frame (ci : ControlImpl) (doc : ComponentDoc)
    (i : Nat) (hi : i < doc.satisfies.length)
    (k : Nat) (hk : k < (doc.satisfies.get ⟨i, hi⟩).narrative.length)
    (hmatch : entryMatches ci (doc.satisfies.get ⟨i, hi⟩) = true)
    (huniq : ∀ (j : Nat) (hj : j < doc.satisfies.length), j ≠ i →
      entryMatches ci (doc.satisfies.get ⟨j, hj⟩) = false)
    (hpart : ((doc.satisfies.get ⟨i, hi⟩).narrative.get ⟨k, hk⟩).key = ci.control_part)
    (hpuniq : ∀ (l : Nat) (hl : l < (doc.satisfies.get ⟨i, hi⟩).narrative.length), l ≠ k →
      ((doc.satisfies.get ⟨i, hi⟩).narrative.get ⟨l, hl⟩).key ≠ ci.control_part) :
    update_component_control ci doc =
      { doc with satisfies := (doc.satisfies.set i
          { doc.satisfies.get ⟨i, hi⟩ with
              narrative := ((doc.satisfies.get ⟨i, hi⟩).narrative.set k
                { (doc.satisfies.get ⟨i, hi⟩).narrative.get ⟨k, hk⟩ with
                    text := ci.narrative }) }) } := by
  have hdef : update_component_control ci doc =
      { doc with satisfies := doc.satisfies.map (fun control =>
          if entryMatches ci control then
            { control with narrative := control.narrative.map (updatePart ci) }
          else control) } := rfl
  have houter := map_eq_set_of_get doc.satisfies
    (fun control =>
      if entryMatches ci control then
        { control with narrative := control.narrative.map (updatePart ci) }
      else control) i hi
    (fun j hj hne => by
      have h2 := huniq j hj hne
      simp only [List.get_eq_getElem] at h2
      simp [h2])
  have hinner := map_eq_set_of_get (doc.satisfies.get ⟨i, hi⟩).narrative
    (updatePart ci) k hk
    (fun l hl hne => by
      have h2 := hpuniq l hl hne
      simp only [List.get_eq_getElem] at h2
      simp [updatePart, h2])
  have hupd : updatePart ci ((doc.satisfies.get ⟨i, hi⟩).narrative.get ⟨k, hk⟩) =
      { (doc.satisfies.get ⟨i, hi⟩).narrative.get ⟨k, hk⟩ with text := ci.narrative } := by
    unfold updatePart
    rw [if_pos hpart]
  rw [hdef]
  simp only [houter]
  rw [if_pos hmatch]
  simp only [hinner]
  rw [hupd]

/-- Witness for C7 at a concrete document (entry 0, fragment 0 of `exDoc`
match `exImplMatch` uniquely). -/
theorem C7_update_preserves_frame_witness :
    update_component_control exImplMatch exDoc =
      { exDoc with satisfies := (exDoc.satisfies.set 0
          { exDoc.satisfies.get ⟨0, by decide⟩ with
              narrative := ((exDoc.satisfies.get ⟨0, by decide⟩).narrative.set 0
                { (exDoc.satisfies.get ⟨0, by decide⟩).narrative.get ⟨0, by decide⟩ with
                    text := exImplMatch.narrative }) }) } :=
  C7_update_preserves_frame exImplMatch exDoc 0 (by decide) 0 (by decide)
    (by decide) (by decide) (by decide) (by decide)

/-! ## No-match update behavior (Claim C1) -/

/-- Counterexample to Claim C1 as stated: the claim says a non-matching
call tells the caller that no match was found, but at this concrete
document the non-matching call returns to its caller exactly the value a
successful matching call returns (`None`: the Python function body has no
`return` statement), so the caller cannot learn whether a match was found
— even though the matching call changes the written document and the
non-matching call does not. -/
theorem C1_counterexample :
    update_component_control_return exImplNoMatch exDoc =
      update_component_control_return exImplMatch exDoc ∧
    update_component_control exImplNoMatch exDoc = exDoc ∧
    update_component_control exImplMatch exDoc ≠ exDoc :=
  ⟨rfl, by decide, by decide⟩

/-- Claim C1 (amended): called with a triple matching no entry/fragment of
a well-formed document, `update_component_control` raises no exception and
rewrites the file with the parsed document unchanged (the document content
is preserved), but it does not report the missing match to the caller: the
call returns `None`, exactly as a successful call does. -/
theorem C1_no_match_amended (ci : ControlImpl) (doc : ComponentDoc)
    (h : ∀ e ∈ doc.satisfies, entryMatches ci e = true →
      ∀ np ∈ e.narrative, np.key ≠ ci.control_part) :
    update_component_control ci doc = doc ∧
    update_component_control_return ci doc = none := by
  refine ⟨?_, rfl⟩
  have hdef : update_component_control ci doc =
      { doc with satisfies := doc.satisfies.map (fun control =>
          if entryMatches ci control then
            { control with narrative := control.narrative.map (updatePart ci) }
          else control) } := rfl
  rw [hdef]
  have hmap : doc.satisfies.map (fun control =>
      if entryMatches ci control then
        { control with narrative := control.narrative.map (updatePart ci) }
      else control) = doc.satisfies.map id := by
    refine List.map_congr_left (fun e he => ?_)
    by_cases hm : entryMatches ci e = true
    · rw [if_pos hm]
      have hparts : e.narrative.map (updatePart ci) = e.narrative.map id := by
        refine List.map_congr_left (fun np hnp => ?_)
        unfold updatePart
        rw [if_neg (h e he hm np hnp)]
        rfl
      rw [hparts, List.map_id]
      rfl
    · rw [if_neg hm]
      rfl
  rw [hmap, List.map_id]

/-- Witness for the amended C1 at a concrete non-matching record. -/
theorem C1_no_match_amended_witness :
    update_component_control exImplNoMatch exDoc = exDoc ∧
    update_component_control_return exImplNoMatch exDoc = none :=
  C1_no_match_amended exImplNoMatch exDoc (by decide)

/-! ## Resolver lemmas (Claim C2) -/

theorem consSepChunk_ne_nil (c : Char) (acc : List (List Char)) :
    consSepChunk c acc ≠ [] := by
  rcases acc with _ | ⟨t, rest⟩
  · simp [consSepChunk]
  by_cases hw : pyIsWord c = true
  · simp [consSepChunk, hw]
  · rcases t with _ | ⟨a, t2⟩
    · rcases rest with _ | ⟨sep, rest2⟩
      · simp [consSepChunk, hw]
      · rcases sep with _ | ⟨d, ds⟩
        · simp [consSepChunk, hw]
        · by_cases hc : pyIsSpace c = pyIsSpace d
          · simp [consSepChunk, hw, hc]
          · simp [consSepChunk, hw, hc]
    · simp [consSepChunk, hw]

theorem flatten_consSepChunk (c : Char) (acc : List (List Char)) (hne : acc ≠ []) :
    (consSepChunk c acc).flatten = c :: acc.flatten := by
  rcases acc with _ | ⟨t, rest⟩
  · exact absurd rfl hne
  by_cases hw : pyIsWord c = true
  · simp [consSepChunk, hw]
  · rcases t with _ | ⟨a, t2⟩
    · rcases rest with _ | ⟨sep, rest2⟩
      · simp [consSepChunk, hw]
      · rcases sep with _ | ⟨d, ds⟩
        · simp [consSepChunk, hw]
        · by_cases hc : pyIsSpace c = pyIsSpace d
          · simp [consSepChunk, hw, hc]
          · simp [consSepChunk, hw, hc]
    · simp [consSepChunk, hw]

theorem splitSepRuns_ne_nil (cs : List Char) : splitSepRuns cs ≠ [] := by
  induction cs with
  | nil => simp [splitSepRuns]
  | cons c cs _ => exact consSepChunk_ne_nil c _

theorem flatten_splitSepRuns (cs : List Char) : (splitSepRuns cs).flatten = cs := by
  induction cs with
  | nil => rfl
  | cons c cs ih =>
    show (consSepChunk c (splitSepRuns cs)).flatten = c :: cs
    rw [flatten_consSepChunk c _ (splitSepRuns_ne_nil cs), ih]

theorem str_append_empty (s : String) : s ++ "" = s := by
  obtain ⟨l⟩ := s
  show String.mk (l ++ []) = String.mk l
  rw [List.append_nil]

theorem foldl_append_strings (rs : List (List Char)) (acc : String) :
    (rs.map (fun l => (⟨l⟩ : String))).foldl (fun r s => r ++ s) acc =
      ⟨acc.data ++ rs.flatten⟩ := by
  induction rs generalizing acc with
  | nil =>
    show acc = ⟨acc.data ++ []⟩
    obtain ⟨l⟩ := acc
    rw [List.append_nil]
  | cons r rest ih =>
    simp only [List.map_cons, List.foldl_cons]
    rw [ih]
    congr 1
    show (acc ++ ⟨r⟩).data ++ rest.flatten = acc.data ++ (r ++ rest.flatten)
    rw [string_append_data]
    simp [List.append_assoc]

theorem join_splitTokens (control_id : String) :
    String.join (splitTokens control_id) = control_id := by
  show (splitTokens control_id).foldl (fun r s => r ++ s) "" = control_id
  unfold splitTokens
  rw [foldl_append_strings]
  rw [flatten_splitSepRuns]
  rfl

theorem splitTokens_ne_nil (control_id : String) : splitTokens control_id ≠ [] := by
  unfold splitTokens
  simp [splitSepRuns_ne_nil]

theorem getContolLoop_found (standard : List (String × CatEntry)) (control_id : String)
    (control_parts : List String) (i : Nat) (e : CatEntry)
    (hlk : standard.lookup (String.join (control_parts.take (i + 1))) = some e) :
    ∀ n, i < n →
    (∀ j, j < n → i < j → standard.lookup (String.join (control_parts.take (j + 1))) = none) →
    getContolLoop standard control_id control_parts n =
      { id := control_id ++
          (if String.join (control_parts.drop (i + 1)) = "" then ""
           else String.join (control_parts.drop (i + 1)))
        name := e.name ++
          (if String.join (control_parts.drop (i + 1)) = "" then ""
           else " " ++ String.join (control_parts.drop (i + 1)))
        description :=
          if String.join (control_parts.drop (i + 1)) = "" then some e.description
          else some ("See " ++ String.join (control_parts.take (i + 1)) ++ ", " ++
            String.join (control_parts.drop (i + 1)) ++ ".") } := by
  intro n
  induction n with
  | zero => omega
  | succ m ih =>
    intro hin hnone
    by_cases him : i = m
    · subst him
      simp [getContolLoop, hlk]
    · have him2 : i < m := by omega
      have hm := hnone m (by omega) him2
      simp only [getContolLoop, hm]
      exact ih him2 (fun j hj1 hj2 => hnone j (by omega) hj2)

theorem getContolLoop_notfound (standard : List (String × CatEntry)) (control_id : String)
    (control_parts : List String) :
    ∀ n,
    (∀ j, j < n → standard.lookup (String.join (control_parts.take (j + 1))) = none) →
    getContolLoop standard control_id control_parts n =
      { id := control_id, name := "[" ++ control_id ++ "]", description := none } := by
  intro n
  induction n with
  | zero => intro _; rfl
  | succ m ih =>
    intro hnone
    have hm := hnone m (by omega)
    simp only [getContolLoop, hm]
    exact ih (fun j hj => hnone j (by omega))

/-- Counterexample to Claim C2 as stated: with catalog
`{"AC-2": {"name": "Account Management", ...}}` and input `"AC-2 (H)"`,
`get_contol` does not return `name = "Account Management (H)"` and does not
return the original input as `id`: the unmatched remainder `" (H)"` keeps
its leading separator and the code inserts another space into the name and
appends the remainder to the full original input for the id, giving
`name = "Account Management  (H)"` (two spaces) and
`id = "AC-2 (H) (H)"`. -/
theorem C2_counterexample :
    (get_contol [("AC-2", ⟨"Account Management", "Account management text."⟩)]
        "AC-2 (H)").name ≠ "Account Management (H)" ∧
    (get_contol [("AC-2", ⟨"Account Management", "Account management text."⟩)]
        "AC-2 (H)").id ≠ "AC-2 (H)" ∧
    get_contol [("AC-2", ⟨"Account Management", "Account management text."⟩)]
        "AC-2 (H)" =
      ⟨"AC-2 (H) (H)", "Account Management  (H)", some "See AC-2,  (H)."⟩ :=
  ⟨by decide, by decide, by decide⟩

/-- Claim C2 (amended): if the whole input is a catalog key, `get_contol`
returns the input, the catalog name and the catalog description unchanged;
if the longest matching token prefix is a proper one with a nonempty
unmatched remainder, the result is
`id = input ++ remainder` (the remainder appended to the full input again),
`name = catalog name ++ " " ++ remainder` (the remainder keeps its leading
separator run, so a separator-initial remainder yields a doubled
separator), and `description = "See " ++ prefix ++ ", " ++ remainder ++ "."`;
if no prefix matches, the result is the synthetic record
`id = input`, `name = "[" ++ input ++ "]"`, `description = None`. -/
theorem C2_resolver_amended (standard : List (String × CatEntry)) (control_id : String) :
    (∀ e : CatEntry, standard.lookup control_id = some e →
      get_contol standard control_id = ⟨control_id, e.name, some e.description⟩) ∧
    (∀ (i : Nat) (e : CatEntry),
      i + 1 < (splitTokens control_id).length →
      standard.lookup (String.join ((splitTokens control_id).take (i + 1))) = some e →
      (∀ j, j < (splitTokens control_id).length → i < j →
        standard.lookup (String.join ((splitTokens control_id).take (j + 1))) = none) →
      String.join ((splitTokens control_id).drop (i + 1)) ≠ "" →
      get_contol standard control_id =
        ⟨control_id ++ String.join ((splitTokens control_id).drop (i + 1)),
         e.name ++ " " ++ String.join ((splitTokens control_id).drop (i + 1)),
         some ("See " ++ String.join ((splitTokens control_id).take (i + 1)) ++ ", " ++
           String.join ((splitTokens control_id).drop (i + 1)) ++ ".")⟩) ∧
    ((∀ j, j < (splitTokens control_id).length →
        standard.lookup (String.join ((splitTokens control_id).take (j + 1))) = none) →
      get_contol standard control_id = ⟨control_id, "[" ++ control_id ++ "]", none⟩) := by
  have hdef : get_contol standard control_id =
      getContolLoop standard control_id (splitTokens control_id)
        (splitTokens control_id).length := rfl
  refine ⟨?_, ?_, ?_⟩
  · intro e hlk
    rcases hlen : (splitTokens control_id).length with _ | m
    · exact absurd (List.length_eq_zero.mp hlen) (splitTokens_ne_nil control_id)
    · have htop : String.join ((splitTokens control_id).take (m + 1)) = control_id := by
        rw [← hlen, List.take_length, join_splitTokens]
      have hrem : String.join ((splitTokens control_id).drop (m + 1)) = "" := by
        rw [← hlen, List.drop_length]
        rfl
      rw [hdef, hlen]
      rw [getContolLoop_found standard control_id (splitTokens control_id) m e
        (by rw [htop]; exact hlk) (m + 1) (by omega) (fun j hj1 hj2 => by omega)]
      rw [hrem]
      simp [str_append_empty]
  · intro i e hi hlk hnone hrem
    rw [hdef]
    rw [getContolLoop_found standard control_id (splitTokens control_id) i e hlk
      (splitTokens control_id).length (by omega) hnone]
    rw [if_neg hrem, if_neg hrem, if_neg hrem]
    simp [String.append_assoc]
  · intro hnone
    rw [hdef]
    exact getContolLoop_notfound standard control_id (splitTokens control_id)
      (splitTokens control_id).length hnone

/-- Witness for the amended C2 on the spec example catalog: the three
resolver scenarios at concrete inputs. -/
theorem C2_resolver_amended_witness :
    get_contol [("AC-2", ⟨"Account Management", "Account management text."⟩)] "AC-2" =
      ⟨"AC-2", "Account Management", some "Account management text."⟩ ∧
    get_contol [("AC-2", ⟨"Account Management", "Account management text."⟩)] "AC-2 (H)" =
      ⟨"AC-2 (H) (H)", "Account Management  (H)", some "See AC-2,  (H)."⟩ ∧
    get_contol [("AC-2", ⟨"Account Management", "Account management text."⟩)] "ZZ-99" =
      ⟨"ZZ-99", "[ZZ-99]", none⟩ :=
  ⟨(C2_resolver_amended [("AC-2", ⟨"Account Management", "Account management text."⟩)]
      "AC-2").1 ⟨"Account Management", "Account management text."⟩ (by decide),
   (C2_resolver_amended [("AC-2", ⟨"Account Management", "Account management text."⟩)]
      "AC-2 (H)").2.1 2 ⟨"Account Management", "Account management text."⟩
      (by decide) (by decide) (by decide) (by decide),
   (C2_resolver_amended [("AC-2", ⟨"Account Management", "Account management text."⟩)]
      "ZZ-99").2.2 (by decide)⟩

/-! ## Whitespace normalization lemmas (Claim C8) -/

/-- Whether a character list starts with a whitespace character. -/
def headIsSpace (l : List Char) : Bool :=
  match l with
  | [] => false
  | c :: _ => pyIsSpace c

/-- Whether a character list ends with a whitespace character. -/
def lastIsSpace (l : List Char) : Bool := headIsSpace l.reverse

theorem headIsSpace_dropWhile (x : List Char) :
    headIsSpace (x.dropWhile pyIsSpace) = false := by
  induction x with
  | nil => rfl
  | cons c t ih =>
    by_cases hc : pyIsSpace c = true
    · simpa [List.dropWhile_cons, hc] using ih
    · have hc2 : pyIsSpace c = false := by simpa using hc
      simp [List.dropWhile_cons, hc2, headIsSpace]

theorem lastIsSpace_dropWhile (x : List Char) (h : x.dropWhile pyIsSpace ≠ []) :
    lastIsSpace (x.dropWhile pyIsSpace) = lastIsSpace x := by
  induction x with
  | nil => simp at h
  | cons c t ih =>
    by_cases hc : pyIsSpace c = true
    · rw [List.dropWhile_cons, if_pos hc] at h ⊢
      have ht : t ≠ [] := by
        intro he
        subst he
        simp at h
      rw [ih h]
      unfold lastIsSpace
      rw [List.reverse_cons]
      rcases he : t.reverse with _ | ⟨d, ds⟩
      · exact absurd (by simpa using he) ht
      · simp [headIsSpace]
    · have hc2 : pyIsSpace c = false := by simpa using hc
      rw [List.dropWhile_cons, if_neg (by simp [hc2])]

theorem headIsSpace_stripChars (l : List Char) :
    headIsSpace (stripChars l) = false := by
  unfold stripChars
  rcases hb : (l.dropWhile pyIsSpace).reverse.dropWhile pyIsSpace with _ | ⟨d, ds⟩
  · simp [headIsSpace]
  · have hb2 : (l.dropWhile pyIsSpace).reverse.dropWhile pyIsSpace ≠ [] := by
      rw [hb]
      simp
    have h1 : lastIsSpace ((l.dropWhile pyIsSpace).reverse.dropWhile pyIsSpace) =
        lastIsSpace (l.dropWhile pyIsSpace).reverse := lastIsSpace_dropWhile _ hb2
    unfold lastIsSpace at h1
    rw [List.reverse_reverse] at h1
    rw [← hb, h1]
    exact headIsSpace_dropWhile l

theorem lastIsSpace_stripChars (l : List Char) :
    lastIsSpace (stripChars l) = false := by
  unfold stripChars lastIsSpace
  rw [List.reverse_reverse]
  exact headIsSpace_dropWhile _

theorem stripChars_of_noEdge (l : List Char)
    (h1 : headIsSpace l = false) (h2 : lastIsSpace l = false) :
    stripChars l = l := by
  have hd : l.dropWhile pyIsSpace = l := by
    rcases l with _ | ⟨c, t⟩
    · rfl
    · simp only [headIsSpace] at h1
      rw [List.dropWhile_cons, if_neg (by simp [h1])]
  unfold stripChars
  rw [hd]
  have hr : l.reverse.dropWhile pyIsSpace = l.reverse := by
    rcases he : l.reverse with _ | ⟨c, t⟩
    · rfl
    · unfold lastIsSpace at h2
      rw [he] at h2
      simp only [headIsSpace] at h2
      rw [List.dropWhile_cons, if_neg (by simp [h2])]
  rw [hr, List.reverse_reverse]

theorem flatten_consRun (c : Char) (acc : List (List Char)) :
    (consRun c acc).flatten = c :: acc.flatten := by
  rcases acc with _ | ⟨r, rest⟩
  · rfl
  · rcases r with _ | ⟨d, run⟩
    · rfl
    · by_cases hc : pyIsSpace c = pyIsSpace d
      · simp [consRun, hc]
      · simp [consRun, hc]

theorem groupRuns_flatten (l : List Char) : (groupRuns l).flatten = l := by
  induction l with
  | nil => rfl
  | cons c t ih =>
    show (consRun c (groupRuns t)).flatten = c :: t
    rw [flatten_consRun, ih]

theorem groupRuns_props (l : List Char) :
    ∀ r ∈ groupRuns l, r ≠ [] ∧ ∀ a ∈ r, ∀ b ∈ r, pyIsSpace a = pyIsSpace b := by
  induction l with
  | nil => simp [groupRuns]
  | cons c t ih =>
    intro r hr
    have hr2 : r ∈ consRun c (groupRuns t) := hr
    rcases hacc : groupRuns t with _ | ⟨r0, rest⟩
    · rw [hacc] at hr2
      simp only [consRun, List.mem_singleton] at hr2
      subst hr2
      refine ⟨by simp, ?_⟩
      intro a ha b hb
      simp only [List.mem_singleton] at ha hb
      rw [ha, hb]
    · rcases r0 with _ | ⟨d, run⟩
      · exact absurd rfl (ih [] (by rw [hacc]; simp)).1
      · have hprev := ih (d :: run) (by rw [hacc]; simp)
        by_cases hc : pyIsSpace c = pyIsSpace d
        · rw [hacc] at hr2
          simp only [consRun, if_pos hc, List.mem_cons] at hr2
          rcases hr2 with he | hrest
          · subst he
            refine ⟨by simp, ?_⟩
            have hclass : ∀ a ∈ c :: d :: run, pyIsSpace a = pyIsSpace d := by
              intro a ha
              rcases List.mem_cons.mp ha with h1 | h2
              · rw [h1]; exact hc
              · exact hprev.2 a h2 d (by simp)
            intro a ha b hb
            rw [hclass a ha, hclass b hb]
          · exact ih r (by rw [hacc]; exact List.mem_cons_of_mem _ hrest)
        · rw [hacc] at hr2
          simp only [consRun, if_neg hc, List.mem_cons] at hr2
          rcases hr2 with he | hrest
          · subst he
            refine ⟨by simp, ?_⟩
            intro a ha b hb
            simp only [List.mem_singleton] at ha hb
            rw [ha, hb]
          · exact ih r (by rw [hacc]; simpa using hrest)

theorem groupRuns_cons (c : Char) (t : List Char) :
    ∃ tr rs, groupRuns (c :: t) = (c :: tr) :: rs := by
  show ∃ tr rs, consRun c (groupRuns t) = (c :: tr) :: rs
  rcases groupRuns t with _ | ⟨r0, rest⟩
  · exact ⟨[], [], rfl⟩
  · rcases r0 with _ | ⟨d, run⟩
    · exact ⟨[], [] :: rest, rfl⟩
    · by_cases hc : pyIsSpace c = pyIsSpace d
      · exact ⟨d :: run, rest, by simp [consRun, hc]⟩
      · exact ⟨[], (d :: run) :: rest, by simp [consRun, hc]⟩

theorem stepRun_ne_nil (r : List Char) (h : r ≠ []) : stepRun r ≠ [] := by
  rcases r with _ | ⟨d, run⟩
  · exact absurd rfl h
  · simp only [stepRun]
    by_cases hd : pyIsSpace d = true
    · rw [if_pos hd]
      unfold collapseRun
      split
      · dsimp only
        split
        · simp
        · simp
      · simp
    · rw [if_neg hd]
      simp

theorem headIsSpace_stepRun (r : List Char) : headIsSpace (stepRun r) = headIsSpace r := by
  rcases r with _ | ⟨d, run⟩
  · rfl
  · simp only [stepRun]
    by_cases hd : pyIsSpace d = true
    · rw [if_pos hd]
      unfold collapseRun
      split
      · dsimp only
        split
        · show headIsSpace _ = headIsSpace (d :: run)
          simp only [headIsSpace, hd]
          decide
        · rfl
      · rfl
    · rw [if_neg hd]

theorem lastIsSpace_of_all (l : List Char) (h : ∀ a ∈ l, pyIsSpace a = true)
    (hne : l ≠ []) : lastIsSpace l = true := by
  unfold lastIsSpace
  rcases he : l.reverse with _ | ⟨x, xs⟩
  · exact absurd (by simpa using congrArg List.reverse he) hne
  · show pyIsSpace x = true
    refine h x ?_
    rw [← List.mem_reverse, he]
    simp

theorem lastIsSpace_stepRun (r : List Char)
    (huni : ∀ a ∈ r, ∀ b ∈ r, pyIsSpace a = pyIsSpace b) :
    lastIsSpace (stepRun r) = lastIsSpace r := by
  rcases r with _ | ⟨d, run⟩
  · rfl
  · simp only [stepRun]
    by_cases hd : pyIsSpace d = true
    · rw [if_pos hd]
      have hall : ∀ a ∈ d :: run, pyIsSpace a = true :=
        fun a ha => (huni a ha d (by simp)).trans hd
      have hlast : lastIsSpace (d :: run) = true := lastIsSpace_of_all _ hall (by simp)
      rw [hlast]
      unfold collapseRun
      split
      · dsimp only
        split
        · refine lastIsSpace_of_all _ ?_ (by simp)
          intro a ha
          rcases List.mem_cons.mp ha with h1 | h2
          · rw [h1]; decide
          · refine hall a ?_
            rw [← List.mem_reverse] at h2
            rw [List.reverse_reverse] at h2
            have h3 := List.takeWhile_subset (fun c => decide (c ≠ Char.ofNat 10)) h2
            exact List.mem_reverse.mp h3
        · exact hlast
      · exact hlast
    · rw [if_neg hd]

theorem headIsSpace_append (a b : List Char) (ha : a ≠ []) :
    headIsSpace (a ++ b) = headIsSpace a := by
  rcases a with _ | ⟨c, t⟩
  · exact absurd rfl ha
  · rfl

theorem lastIsSpace_append (a b : List Char) (hb : b ≠ []) :
    lastIsSpace (a ++ b) = lastIsSpace b := by
  unfold lastIsSpace
  rw [List.reverse_append]
  exact headIsSpace_append _ _ (by simpa using hb)

theorem flatten_ne_nil_of_head (r : List Char) (rs : List (List Char)) (h : r ≠ []) :
    (r :: rs).flatten ≠ [] := by
  rcases r with _ | ⟨c, t⟩
  · exact absurd rfl h
  · simp

theorem lastIsSpace_flatten_map_step (rs : List (List Char))
    (hprops : ∀ r ∈ rs, r ≠ [] ∧ ∀ a ∈ r, ∀ b ∈ r, pyIsSpace a = pyIsSpace b) :
    lastIsSpace ((rs.map stepRun).flatten) = lastIsSpace rs.flatten := by
  induction rs with
  | nil => rfl
  | cons r rest ih =>
    rcases rest with _ | ⟨r2, rest2⟩
    · simp only [List.map_cons, List.map_nil, List.flatten_cons, List.flatten_nil,
        List.append_nil]
      exact lastIsSpace_stepRun r (hprops r (by simp)).2
    · have h2 := hprops r2 (by simp)
      have hy : (r2 :: rest2).flatten ≠ [] := flatten_ne_nil_of_head r2 rest2 h2.1
      have hym : ((r2 :: rest2).map stepRun).flatten ≠ [] := by
        rw [List.map_cons]
        exact flatten_ne_nil_of_head _ _ (stepRun_ne_nil r2 h2.1)
      rw [List.map_cons, List.flatten_cons, List.flatten_cons,
        lastIsSpace_append (stepRun r) _ hym, lastIsSpace_append r _ hy]
      exact ih (fun r3 h3 => hprops r3 (List.mem_cons_of_mem _ h3))

theorem headIsSpace_subWs (l : List Char) :
    headIsSpace (((groupRuns l).map stepRun).flatten) = headIsSpace l := by
  rcases l with _ | ⟨c, t⟩
  · rfl
  · obtain ⟨tr, rs, hg⟩ := groupRuns_cons c t
    rw [hg]
    simp only [List.map_cons, List.flatten_cons]
    rw [headIsSpace_append _ _ (stepRun_ne_nil _ (by simp))]
    rw [headIsSpace_stepRun]
    rfl

theorem lastIsSpace_subWs (l : List Char) :
    lastIsSpace (((groupRuns l).map stepRun).flatten) = lastIsSpace l := by
  have h := lastIsSpace_flatten_map_step (groupRuns l) (groupRuns_props l)
  rw [groupRuns_flatten] at h
  exact h

/-- The `clean_text` output is trimmed: `subWsNl` preserves the absence of
edge whitespace, and a stripped string has none. -/
theorem pyStrip_subWsNl_pyStrip (t : String) :
    pyStrip (subWsNl (pyStrip t)) = subWsNl (pyStrip t) := by
  have h1 : headIsSpace (subWsNl (pyStrip t)).data = false := by
    show headIsSpace (((groupRuns (stripChars t.data)).map stepRun).flatten) = false
    rw [headIsSpace_subWs]
    exact headIsSpace_stripChars t.data
  have h2 : lastIsSpace (subWsNl (pyStrip t)).data = false := by
    show lastIsSpace (((groupRuns (stripChars t.data)).map stepRun).flatten) = false
    rw [lastIsSpace_subWs]
    exact lastIsSpace_stripChars t.data
  show String.mk (stripChars (subWsNl (pyStrip t)).data) = subWsNl (pyStrip t)
  rw [stripChars_of_noEdge _ h1 h2]

/-- The scan of `update_control` finds the first matching entry and
replaces exactly it. -/
theorem rtUpdateFirst_found (form : UpdateForm) (sat : List RtSatEntry)
    (i : Nat) (hi : i < sat.length)
    (hmatch : rtMatches form (sat.get ⟨i, hi⟩) = true)
    (hbefore : ∀ (j : Nat) (hj : j < sat.length), j < i →
      rtMatches form (sat.get ⟨j, hj⟩) = false) :
    rtUpdateFirst form sat = some (sat.set i (rtUpdateEntry form (sat.get ⟨i, hi⟩))) := by
  induction sat generalizing i with
  | nil => simp at hi
  | cons e rest ih =>
    cases i with
    | zero =>
      simp only [List.get] at hmatch
      simp [rtUpdateFirst, hmatch, List.set]
    | succ m =>
      have h0 : rtMatches form e = false := by
        simpa [List.get] using hbefore 0 (by simp) (by simp)
      have hrec := ih m (by simpa using hi) (by simpa [List.get] using hmatch)
        (fun j hj hlt => by
          simpa [List.get] using hbefore (j + 1) (by simp; omega) (by omega))
      simp [rtUpdateFirst, h0, hrec, List.set]

/-- Counterexample to Claim C8 as stated: `update_component_control`
performs a successful narrative update writing the text `" x "` to the file
verbatim — not trimmed (it differs from its own strip) and not normalized,
while `clean_text` (the normalization the routes layer applies) would have
produced `"x"`. -/
theorem C8_counterexample :
    (((update_component_control exImplWs exDoc).satisfies.get
        ⟨0, by decide⟩).narrative.get ⟨0, by decide⟩).text = " x " ∧
    pyStrip " x " ≠ " x " ∧
    clean_text " x " = some "x" :=
  ⟨by decide, by decide, by decide⟩

/-- Claim C8 (amended): narrative updates through the route-side
`update_control` are normalized before writing — the matched entry is
rewritten with `clean_text` of the posted fields, where `clean_text` strips
the text, collapses whitespace runs ending at an internal line break to the
line break alone, returns an already-trimmed result, and maps an entirely
blank result to `None` (field absent).  `update_component_control`, by
contrast, writes the supplied narrative text verbatim, with no
normalization. -/
theorem C8_normalization_amended :
    (∀ (form : UpdateForm) (doc : RtDoc) (i : Nat) (hi : i < doc.satisfies.length),
      rtMatches form (doc.satisfies.get ⟨i, hi⟩) = true →
      (∀ (j : Nat) (hj : j < doc.satisfies.length), j < i →
        rtMatches form (doc.satisfies.get ⟨j, hj⟩) = false) →
      update_control_doc form doc =
        ({ doc with satisfies := (doc.satisfies.set i
            (rtUpdateEntry form (doc.satisfies.get ⟨i, hi⟩))) }, "OK")) ∧
    (∀ (form : UpdateForm) (e : RtSatEntry),
      (rtUpdateEntry form e).narrative = clean_text form.narrative) ∧
    (∀ t u : String, clean_text t = some u →
      u = subWsNl (pyStrip t) ∧ u ≠ "" ∧ pyStrip u = u) ∧
    (∀ t : String, subWsNl (pyStrip t) = "" → clean_text t = none) ∧
    (∀ (ci : ControlImpl) (np : NarrativePart), np.key = ci.control_part →
      (updatePart ci np).text = ci.narrative) := by
  refine ⟨?_, fun form e => rfl, ?_, ?_, ?_⟩
  · intro form doc i hi hmatch hbefore
    unfold update_control_doc
    rw [rtUpdateFirst_found form doc.satisfies i hi hmatch hbefore]
  · intro t u h
    unfold clean_text at h
    dsimp only at h
    split at h
    · exact absurd h (by simp)
    · simp only [Option.some.injEq] at h
      subst h
      refine ⟨rfl, by assumption, pyStrip_subWsNl_pyStrip t⟩
  · intro t h
    unfold clean_text
    rw [h]
    rfl
  · intro ci np h
    unfold updatePart
    rw [if_pos h]

/-- Witness for the amended C8: the route-side update at a concrete form
and document stores the `clean_text` normalization of the posted narrative,
and the normalization of a concrete messy input is stripped and collapsed. -/
theorem C8_normalization_amended_witness :
    update_control_doc exForm exRtDoc =
      ({ exRtDoc with satisfies := (exRtDoc.satisfies.set 1
          (rtUpdateEntry exForm (exRtDoc.satisfies.get ⟨1, by decide⟩))) }, "OK") ∧
    (rtUpdateEntry exForm (exRtDoc.satisfies.get ⟨1, by decide⟩)).narrative =
      clean_text "  line one  \n line two  " ∧
    ("line one\n line two" = subWsNl (pyStrip "  line one  \n line two  ") ∧
      "line one\n line two" ≠ "" ∧
      pyStrip "line one\n line two" = "line one\n line two") ∧
    (updatePart exImplWs ⟨some "a", "old text a", []⟩).text = " x " :=
  ⟨C8_normalization_amended.1 exForm exRtDoc 1 (by decide) (by decide) (by decide),
   C8_normalization_amended.2.1 exForm (exRtDoc.satisfies.get ⟨1, by decide⟩),
   C8_normalization_amended.2.2.1 "  line one  \n line two  " "line one\n line two" (by decide),
   C8_normalization_amended.2.2.2.2 exImplWs ⟨some "a", "old text a", []⟩ (by decide)⟩

/-! ## SHA-256 model validation against published test vectors -/

theorem sha256_vector_empty :
    sha256_hexdigest "" =
      "e3b0c44298fc1c149afbf4c8996fb92427ae41e4649b934ca495991b7852b855" := by
  decide

theorem sha256_vector_abc :
    sha256_hexdigest "abc" =
      "ba7816bf8f01cfea414140de5dae2223b00361a396177a9cb410ff61f20015ad" := by
  decide
